import Mathlib

/-!
# PixelFly backend — verification of the image pipeline

A shallow embedding, in Lean 4, of the algorithmic core of the PixelFly
backend (placement engine, enhancement decision engine, enhancement
executor, style renderer sizing, composition metrics), together with
theorems settling the frozen claims about it.

Modelling conventions, used throughout:

* Pixel sample values are rationals (`ℚ`).  The Python code computes with
  numpy float64 / uint8; every arithmetic step of the source is mirrored
  exactly over `ℚ`, with the 8-bit quantisation steps (C casts, `int(...)`)
  made explicit where the source performs them.
* Python integers are `ℤ` where subtraction may go negative (zone
  coordinates), `ℕ` where the source values are guaranteed non-negative
  (image dimensions from `numpy.shape` / `PIL.Image.size`).
  Python floor division `//` on non-negative operands is `Nat` division;
  on possibly-negative dividends it is `Int.fdiv`.
* `numpy.mean` / `numpy.var` of an *empty* slice are NaN in numpy; NaN is
  modelled by `Option ℚ` with `none` for NaN in the places where an empty
  slice is reachable (the composition zones).  NaN is not an element of
  any real interval, matching `none`.
* `numpy.std x < t` (for a threshold `t > 0`) is modelled as
  `var x < t^2`: both sides are non-negative, so the comparison of the
  standard deviation against `t` is exactly the comparison of the
  variance against `t^2`, and the variance is exact over `ℚ` while the
  standard deviation is not.
* A Python `raise`/exception path is an `Except`/`Option` failure value.
-/

namespace PixelFly

/-- Clamp-and-truncate to an 8-bit sample, as the C cast to `UINT8` after
clipping does in PIL's blend / filter kernels (values are first clipped to
`[0, 255]`, then truncated; after clipping the value is non-negative, so
truncation is `Int.floor`). -/
def q8 (x : ℚ) : ℚ := max 0 (min 255 (⌊x⌋ : ℚ))

/-- An RGB raster image: width, height, and a pixel function
`pix x y = (r, g, b)` for column `x`, row `y`.  This is the `PixelBuffer`
of the spec; PIL images and numpy arrays decoded from them are both
modelled by this one structure. -/
structure RGBImg where
  width : ℕ
  height : ℕ
  pix : ℕ → ℕ → ℚ × ℚ × ℚ

/-- The index set of an image's pixels, `(x, y)` pairs. -/
def gridF (w h : ℕ) : Finset (ℕ × ℕ) := Finset.range w ×ˢ Finset.range h

/-- Mean of `f` over a finite index set (`numpy.mean`); division by zero
yields `0` in `ℚ`, and every use on an empty set is wrapped in an
emptiness check where numpy would produce NaN. -/
def fmean (R : Finset (ℕ × ℕ)) (f : ℕ × ℕ → ℚ) : ℚ :=
  (∑ p in R, f p) / (R.card : ℚ)

/-- Population variance of `f` over a finite index set (`numpy.var`). -/
def fvar (R : Finset (ℕ × ℕ)) (f : ℕ × ℕ → ℚ) : ℚ :=
  (∑ p in R, (f p - fmean R f) ^ 2) / (R.card : ℚ)

/-- Variance as mean of squares minus squared mean (exact over `ℚ`). -/
theorem fvar_eq (R : Finset (ℕ × ℕ)) (f : ℕ × ℕ → ℚ) :
    fvar R f = (∑ p in R, f p ^ 2) / (R.card : ℚ) - (fmean R f) ^ 2 := by
  rcases Nat.eq_zero_or_pos R.card with h | h
  · simp [fvar, fmean, h]
  · have hc : (R.card : ℚ) ≠ 0 := by positivity
    have expand : ∀ p ∈ R, (f p - fmean R f) ^ 2
        = f p ^ 2 - 2 * fmean R f * f p + fmean R f ^ 2 := by
      intro p _; ring
    rw [fvar, Finset.sum_congr rfl expand]
    rw [Finset.sum_add_distrib, Finset.sum_sub_distrib, ← Finset.mul_sum,
      Finset.sum_const, nsmul_eq_mul]
    have hm : ∑ p in R, f p = (R.card : ℚ) * fmean R f := by
      rw [fmean]; field_simp
    rw [hm]
    field_simp
    ring

/-- Sums of an indicator function: summing `if p ∈ S then c else 0` over a
region `R` counts the markers of `S` inside `R`. -/
theorem sum_indicator (R S : Finset (ℕ × ℕ)) (c : ℚ) :
    (∑ p in R, (if p ∈ S then c else 0)) = ((S ∩ R).card : ℚ) * c := by
  rw [← Finset.sum_filter, Finset.filter_mem_eq_inter, Finset.sum_const,
    nsmul_eq_mul, Finset.inter_comm]

end PixelFly

namespace PixelFly

/-! ## Style renderer: font-size resolution (`simple_server.apply_watermark_style`)

```python
if size == 'small':
    font_size = 14
elif size == 'medium':
    font_size = 20
elif size == 'large':
    font_size = 28
elif size == 'adaptive':
    available_width = x2 - x1
    available_height = y2 - y1
    font_size = min(available_width // len(text), available_height // 2, 24)
    font_size = max(font_size, 12)  # Minimum size
else:
    font_size = 20  # Default
```

`len(text) == 0` makes `available_width // len(text)` raise
`ZeroDivisionError`, modelled as `none`.  Python `//` is floor division,
`Int.fdiv`. -/

/-- Font size resolution of `apply_watermark_style`.  `textLen` is
`len(text)`; the rectangle is `(x1, y1, x2, y2)`. -/
def font_size_for (size : String) (x1 y1 x2 y2 : ℤ) (textLen : ℕ) : Option ℤ :=
  if size = "small" then some 14
  else if size = "medium" then some 20
  else if size = "large" then some 28
  else if size = "adaptive" then
    if textLen = 0 then none
    else some (max (min ((x2 - x1).fdiv (textLen : ℤ))
      (min ((y2 - y1).fdiv 2) 24)) 12)
  else some 20

/-- C10.  The Adaptive font-size computation divides the rectangle width by
the text length with no guard: for non-empty text it is total with a result
in `[12, 24]`; for empty text the division `(x2 - x1) // len(text)` raises
`ZeroDivisionError` (modelled `none`) instead of falling back to a default
size. -/
theorem C10_adaptive_font_size (x1 y1 x2 y2 : ℤ) (n : ℕ) :
    (0 < n → ∃ s, font_size_for ("adaptive") x1 y1 x2 y2 n = some s ∧
      12 ≤ s ∧ s ≤ 24) ∧
    font_size_for ("adaptive") x1 y1 x2 y2 0 = none := by
  constructor
  · intro hn
    refine ⟨max (min ((x2 - x1).fdiv (n : ℤ)) (min ((y2 - y1).fdiv 2) 24)) 12,
      ?_, ?_, ?_⟩
    · simp [font_size_for, Nat.pos_iff_ne_zero.mp hn]
    · exact le_max_right _ _
    · have h1 : min ((x2 - x1).fdiv (n : ℤ)) (min ((y2 - y1).fdiv 2) 24) ≤ 24 :=
        le_trans (min_le_right _ _) (min_le_right _ _)
      omega
  · simp [font_size_for]

/-- Witness for C10: a concrete 160-wide, 60-tall rectangle with a 7-glyph
text resolves to an in-range size, and the same rectangle with empty text
is the error case. -/
theorem C10_adaptive_font_size_witness :
    (0 < 7) ∧ (∃ s, font_size_for ("adaptive") 20 20 180 80 7 = some s ∧
      12 ≤ s ∧ s ≤ 24) :=
  ⟨by decide, (C10_adaptive_font_size 20 20 180 80 7).1 (by decide)⟩

end PixelFly

namespace PixelFly

/-! ## Placement engine (`simple_server.py` / `api/index.py`)

`smart_adaptive_placement`, `traditional_placement`,
`content_aware_placement`, `edge_detection_placement` and the dispatch in
`add_revolutionary_watermark`.  Rectangles are `(x1, y1, x2, y2)` over `ℤ`
because the Python subtractions `w-200`, `h-100`, ... go negative on small
images.  `w//2` of a non-negative Python int is `Nat` division, cast. -/

/-- A candidate rectangle `(x1, y1, x2, y2)`. -/
abbrev Rect := ℤ × ℤ × ℤ × ℤ

/-- `gray = np.mean(img_array, axis=2)`: per-pixel mean of the three
channels. -/
def grayAt (img : RGBImg) (p : ℕ × ℕ) : ℚ :=
  let c := img.pix p.1 p.2
  (c.1 + c.2.1 + c.2.2) / 3

/-- The five candidate zones of `smart_adaptive_placement`, in source
order: bottom right, bottom left, top right, top left, center. -/
def zonesList (w h : ℕ) : List Rect :=
  [ ((w : ℤ) - 200, (h : ℤ) - 100, (w : ℤ) - 20, (h : ℤ) - 20),
    (20, (h : ℤ) - 100, 200, (h : ℤ) - 20),
    ((w : ℤ) - 200, 20, (w : ℤ) - 20, 100),
    (20, 20, 200, 100),
    ((w / 2 : ℕ) - 100, (h / 2 : ℕ) - 50, (w / 2 : ℕ) + 100, (h / 2 : ℕ) + 50) ]

/-- The numpy slice `gray[y1:y2, x1:x2]` as an index set (used only when
the zone passed the in-bounds guard, so the coordinates are
non-negative). -/
def rectRegion (r : Rect) : Finset (ℕ × ℕ) :=
  Finset.Ico r.1.toNat r.2.2.1.toNat ×ˢ Finset.Ico r.2.1.toNat r.2.2.2.toNat

/-- `np.var(region)` for a zone of the grayscale image. -/
def zoneVariance (img : RGBImg) (r : Rect) : ℚ :=
  fvar (rectRegion r) (grayAt img)

/-- The in-bounds guard of the placement loop:
`x2 < w and y2 < h and x1 >= 0 and y1 >= 0`. -/
def spGuard (w h : ℕ) (r : Rect) : Bool :=
  decide (r.2.2.1 < (w : ℤ)) && decide (r.2.2.2 < (h : ℤ)) &&
    decide (0 ≤ r.1) && decide (0 ≤ r.2.1)

/-- `variance < min_variance`, where `min_variance` starts as
`float('inf')` (modelled `none`: every finite variance beats it). -/
def ltMinVar (v : ℚ) : Option ℚ → Bool
  | none => true
  | some m => decide (v < m)

/-- The selection loop of `smart_adaptive_placement`: for each zone in
order, if it passes the bounds guard and its grayscale variance is below
the running minimum, it becomes the new best zone. -/
def spLoop (img : RGBImg) (w h : ℕ) : List Rect → Rect → Option ℚ → Rect
  | [], best, _ => best
  | z :: rest, best, m =>
    if spGuard w h z && ltMinVar (zoneVariance img z) m then
      spLoop img w h rest z (some (zoneVariance img z))
    else
      spLoop img w h rest best m

/-- `smart_adaptive_placement(image, text, size)`: defaults to the first
zone (bottom right) and runs the selection loop over the candidates. -/
def smart_adaptive_placement (img : RGBImg) : Rect :=
  spLoop img img.width img.height (zonesList img.width img.height)
    ((zonesList img.width img.height).headI) none

/-- `traditional_placement(image, position, size)`. -/
def traditional_placement (img : RGBImg) (position : String) : Rect :=
  let w : ℤ := img.width
  let h : ℤ := img.height
  if position = "bottom_right" then (w - 180, h - 80, w - 20, h - 20)
  else if position = "bottom_left" then (20, h - 80, 200, h - 20)
  else if position = "top_right" then (w - 180, 20, w - 20, 80)
  else if position = "top_left" then (20, 20, 200, 80)
  else if position = "center" then
    ((img.width / 2 : ℕ) - 90, (img.height / 2 : ℕ) - 40,
     (img.width / 2 : ℕ) + 90, (img.height / 2 : ℕ) + 40)
  else (w - 180, h - 80, w - 20, h - 20)

/-- `content_aware_placement`: computes edge maps but always returns the
fixed bottom-right rectangle. -/
def content_aware_placement (img : RGBImg) : Rect :=
  ((img.width : ℤ) - 180, (img.height : ℤ) - 80,
   (img.width : ℤ) - 20, (img.height : ℤ) - 20)

/-- `edge_detection_placement`: the fixed top-left rectangle. -/
def edge_detection_placement : Rect := (20, 20, 200, 80)

/-- The position dispatch of `add_revolutionary_watermark`. -/
def placementFor (img : RGBImg) (position : String) : Rect :=
  if position = "smart_adaptive" then smart_adaptive_placement img
  else if position = "content_aware" then content_aware_placement img
  else if position = "edge_detection" then edge_detection_placement
  else traditional_placement img position

/-- A rectangle lies fully within a `w × h` image: left/top non-negative,
right/bottom edges at most the image bounds. -/
def inBoundsRect (r : Rect) (w h : ℕ) : Prop :=
  0 ≤ r.1 ∧ 0 ≤ r.2.1 ∧ r.2.2.1 ≤ (w : ℤ) ∧ r.2.2.2 ≤ (h : ℤ)

/-- A 1×1 all-black image. -/
def onePx : RGBImg := ⟨1, 1, fun _ _ => (0, 0, 0)⟩

/-- C1 counterexample.  On a 1×1 image no candidate zone passes the guard,
so `smart_adaptive_placement` falls back to the unclamped bottom-right
rectangle `(-199, -99, -19, -19)`, whose left and top coordinates are
negative: the returned rectangle is not within the image bounds. -/
theorem C1_counterexample :
    placementFor onePx ("smart_adaptive") = (-199, -99, -19, -19) ∧
      ¬ inBoundsRect (-199, -99, -19, -19) 1 1 := by
  constructor
  · decide
  · intro h
    exact absurd h.1 (by decide)

/-- The selection loop only ever moves to a zone that passed the guard. -/
theorem spLoop_guard (img : RGBImg) (w h : ℕ) :
    ∀ (l : List Rect) (best : Rect) (m : Option ℚ),
      spGuard w h best = true → spGuard w h (spLoop img w h l best m) = true := by
  intro l
  induction l with
  | nil => intro best m hb; simpa [spLoop] using hb
  | cons z rest ih =>
    intro best m hb
    rw [spLoop]
    by_cases hz : (spGuard w h z && ltMinVar (zoneVariance img z) m) = true
    · rw [if_pos hz]
      exact ih z _ (Bool.and_elim_left hz)
    · rw [if_neg hz]
      exact ih best m hb

/-- A guarded zone is in bounds (the guard is strict on the right/bottom
edges, the bound is non-strict). -/
theorem spGuard_inBounds (w h : ℕ) (r : Rect) (hg : spGuard w h r = true) :
    inBoundsRect r w h := by
  obtain ⟨x1, y1, x2, y2⟩ := r
  simp only [spGuard, Bool.and_eq_true, decide_eq_true_eq] at hg
  exact ⟨hg.1.2, hg.2, le_of_lt hg.1.1.1, le_of_lt hg.1.1.2⟩

/-- Introduction form of `inBoundsRect` on a literal rectangle. -/
theorem inBoundsRect_mk {x1 y1 x2 y2 : ℤ} {w h : ℕ}
    (h1 : 0 ≤ x1) (h2 : 0 ≤ y1) (h3 : x2 ≤ (w : ℤ)) (h4 : y2 ≤ (h : ℤ)) :
    inBoundsRect (x1, y1, x2, y2) w h :=
  ⟨h1, h2, h3, h4⟩

/-- C1 amended.  For every image at least 200 pixels wide and 100 pixels
tall, every requested position mode (fixed zones, smart adaptive, content
aware, edge based, and the unknown-position default) returns a rectangle
fully within the image bounds.  (The original claim, which asserted this
for all images down to 1×1, fails: see the counterexample.) -/
theorem C1_amended (img : RGBImg) (position : String)
    (hw : 200 ≤ img.width) (hh : 100 ≤ img.height) :
    inBoundsRect (placementFor img position) img.width img.height := by
  have h2w : (img.width / 2) * 2 ≤ img.width := Nat.div_mul_le_self img.width 2
  have h2w' : img.width < (img.width / 2) * 2 + 2 :=
    Nat.lt_div_mul_add (show 0 < 2 by decide)
  have h2h : (img.height / 2) * 2 ≤ img.height := Nat.div_mul_le_self img.height 2
  have h2h' : img.height < (img.height / 2) * 2 + 2 :=
    Nat.lt_div_mul_add (show 0 < 2 by decide)
  rw [placementFor]
  by_cases hs : position = "smart_adaptive"
  · rw [if_pos hs]
    have hbase : spGuard img.width img.height
        ((zonesList img.width img.height).headI) = true := by
      simp only [zonesList, List.headI, spGuard, Bool.and_eq_true, decide_eq_true_eq]
      omega
    exact spGuard_inBounds _ _ _
      (spLoop_guard img img.width img.height _ _ none hbase)
  · rw [if_neg hs]
    by_cases hc : position = "content_aware"
    · rw [if_pos hc, content_aware_placement]
      exact inBoundsRect_mk (by omega) (by omega) (by omega) (by omega)
    · rw [if_neg hc]
      by_cases he : position = "edge_detection"
      · rw [if_pos he]
        exact inBoundsRect_mk (by omega) (by omega) (by omega) (by omega)
      · rw [if_neg he]
        rw [traditional_placement]
        by_cases p1 : position = "bottom_right"
        · rw [if_pos p1]
          exact inBoundsRect_mk (by omega) (by omega) (by omega) (by omega)
        · rw [if_neg p1]
          by_cases p2 : position = "bottom_left"
          · rw [if_pos p2]
            exact inBoundsRect_mk (by omega) (by omega) (by omega) (by omega)
          · rw [if_neg p2]
            by_cases p3 : position = "top_right"
            · rw [if_pos p3]
              exact inBoundsRect_mk (by omega) (by omega) (by omega) (by omega)
            · rw [if_neg p3]
              by_cases p4 : position = "top_left"
              · rw [if_pos p4]
                exact inBoundsRect_mk (by omega) (by omega) (by omega) (by omega)
              · rw [if_neg p4]
                by_cases p5 : position = "center"
                · rw [if_pos p5]
                  exact inBoundsRect_mk (by omega) (by omega) (by omega) (by omega)
                · rw [if_neg p5]
                  exact inBoundsRect_mk (by omega) (by omega) (by omega) (by omega)

/-- A 200×100 all-black image, the smallest size the amended C1 covers. -/
def img200 : RGBImg := ⟨200, 100, fun _ _ => (0, 0, 0)⟩

/-- The guard, as a proposition about the rectangle's coordinates. -/
theorem spGuard_iff (w h : ℕ) (r : Rect) :
    spGuard w h r = true ↔
      r.2.2.1 < (w : ℤ) ∧ r.2.2.2 < (h : ℤ) ∧ 0 ≤ r.1 ∧ 0 ≤ r.2.1 := by
  simp [spGuard, and_assoc]

/-- Variance of a constant function is zero. -/
theorem fvar_const (R : Finset (ℕ × ℕ)) (f : ℕ × ℕ → ℚ) (c : ℚ)
    (h : ∀ p ∈ R, f p = c) : fvar R f = 0 := by
  rcases Nat.eq_zero_or_pos R.card with hc | hc
  · simp [fvar, Finset.card_eq_zero.mp hc]
  · have hm : fmean R f = c := by
      rw [fmean, Finset.sum_congr rfl h, Finset.sum_const, nsmul_eq_mul]
      field_simp
    have hz : ∀ p ∈ R, (f p - fmean R f) ^ 2 = 0 := by
      intro p hp; rw [h p hp, hm]; ring
    rw [fvar, Finset.sum_congr rfl hz, Finset.sum_const]
    simp

/-- If no zone of the remaining list passes the guard, the loop keeps the
current best zone. -/
theorem spLoop_noguard (img : RGBImg) (w h : ℕ) :
    ∀ (l : List Rect) (best : Rect) (m : Option ℚ),
      (∀ z ∈ l, ¬ (spGuard w h z = true)) →
      spLoop img w h l best m = best := by
  intro l
  induction l with
  | nil => intro best m _; rw [spLoop]
  | cons z rest ih =>
    intro best m hg
    rw [spLoop, if_neg, ih best m (fun z' hz' => hg z' (List.mem_cons_of_mem _ hz'))]
    intro hcond
    exact hg z (List.mem_cons_self _ _) (Bool.and_elim_left hcond)

/-- If every zone variance is zero, a loop whose running minimum is
already zero never moves off the current best zone. -/
theorem spLoop_zerovar (img : RGBImg) (w h : ℕ) :
    ∀ (l : List Rect) (best : Rect),
      (∀ z ∈ l, zoneVariance img z = 0) →
      spLoop img w h l best (some 0) = best := by
  intro l
  induction l with
  | nil => intro best _; rw [spLoop]
  | cons z rest ih =>
    intro best hz
    rw [spLoop, if_neg, ih best (fun z' hz' => hz z' (List.mem_cons_of_mem _ hz'))]
    intro hcond
    have := Bool.and_elim_right hcond
    rw [ltMinVar, hz z (List.mem_cons_self _ _)] at this
    exact absurd (of_decide_eq_true this) (lt_irrefl 0)

/-- Correctness of the selection loop on a fully guarded candidate list:
starting from a best zone whose variance is the running minimum, the loop
returns either the initial best (which then has minimal variance among all
remaining candidates) or the first candidate achieving a variance strictly
below the initial best and minimal among all candidates. -/
theorem spLoop_argmin (img : RGBImg) (w h : ℕ) :
    ∀ (l : List Rect) (best : Rect),
      (∀ z ∈ l, spGuard w h z = true) →
      (spLoop img w h l best (some (zoneVariance img best)) = best ∧
        ∀ z ∈ l, zoneVariance img best ≤ zoneVariance img z) ∨
      (∃ i : ℕ, ∃ hi : i < l.length,
        spLoop img w h l best (some (zoneVariance img best)) = l.get ⟨i, hi⟩ ∧
        zoneVariance img (l.get ⟨i, hi⟩) < zoneVariance img best ∧
        (∀ z ∈ l, zoneVariance img (l.get ⟨i, hi⟩) ≤ zoneVariance img z) ∧
        ∀ j : ℕ, ∀ hj : j < l.length, j < i →
          zoneVariance img (l.get ⟨i, hi⟩) < zoneVariance img (l.get ⟨j, hj⟩)) := by
  intro l
  induction l with
  | nil => intro best _; left; exact ⟨by rw [spLoop], by simp⟩
  | cons z rest ih =>
    intro best hg
    have hgz : spGuard w h z = true := hg z (List.mem_cons_self _ _)
    have hgr : ∀ z' ∈ rest, spGuard w h z' = true :=
      fun z' hz' => hg z' (List.mem_cons_of_mem _ hz')
    by_cases hlt : zoneVariance img z < zoneVariance img best
    · rw [spLoop, if_pos (by rw [hgz, ltMinVar, decide_eq_true hlt]; rfl)]
      rcases ih z hgr with ⟨he, hmin⟩ | ⟨i, hi, he, hlt2, hmin, hfirst⟩
      · right
        refine ⟨0, by simp, ?_, ?_, ?_, ?_⟩
        · simpa using he
        · simpa using hlt
        · intro z' hz'
          rcases List.mem_cons.mp hz' with rfl | hz'
          · simp
          · simpa using hmin z' hz'
        · intro j hj hj0; omega
      · right
        refine ⟨i + 1, by simpa using hi, ?_, ?_, ?_, ?_⟩
        · simpa using he
        · simpa using lt_trans hlt2 hlt
        · intro z' hz'
          rcases List.mem_cons.mp hz' with rfl | hz'
          · simpa using le_of_lt hlt2
          · simpa using hmin z' hz'
        · intro j hj hji
          rcases Nat.eq_zero_or_pos j with rfl | hjp
          · simpa using hlt2
          · obtain ⟨j', rfl⟩ := Nat.exists_eq_succ_of_ne_zero (Nat.pos_iff_ne_zero.mp hjp)
            have hj' : j' < rest.length := by simpa using hj
            simpa using hfirst j' hj' (by omega)
    · rw [spLoop, if_neg (by
        rw [hgz, ltMinVar]
        simp only [Bool.true_and, decide_eq_true_eq]
        exact hlt)]
      rcases ih best hgr with ⟨he, hmin⟩ | ⟨i, hi, he, hlt2, hmin, hfirst⟩
      · left
        refine ⟨he, ?_⟩
        intro z' hz'
        rcases List.mem_cons.mp hz' with rfl | hz'
        · exact le_of_not_lt hlt
        · exact hmin z' hz'
      · right
        refine ⟨i + 1, by simpa using hi, ?_, ?_, ?_, ?_⟩
        · simpa using he
        · simpa using hlt2
        · intro z' hz'
          rcases List.mem_cons.mp hz' with rfl | hz'
          · simpa using le_trans (le_of_lt hlt2) (le_of_not_lt hlt)
          · simpa using hmin z' hz'
        · intro j hj hji
          rcases Nat.eq_zero_or_pos j with rfl | hjp
          · simpa using lt_of_lt_of_le hlt2 (le_of_not_lt hlt)
          · obtain ⟨j', rfl⟩ := Nat.exists_eq_succ_of_ne_zero (Nat.pos_iff_ne_zero.mp hjp)
            have hj' : j' < rest.length := by simpa using hj
            simpa using hfirst j' hj' (by omega)

/-- Entry form of the loop: the initial best is the first candidate and
the running minimum starts at infinity, so when every candidate passes the
guard the loop returns the first candidate of minimal variance. -/
theorem spLoop_entry (img : RGBImg) (w h : ℕ) (z1 : Rect) (rest : List Rect)
    (hgz : spGuard w h z1 = true) (hgr : ∀ z ∈ rest, spGuard w h z = true) :
    ∃ i : ℕ, ∃ hi : i < (z1 :: rest).length,
      spLoop img w h (z1 :: rest) z1 none = (z1 :: rest).get ⟨i, hi⟩ ∧
      (∀ z ∈ z1 :: rest,
        zoneVariance img (spLoop img w h (z1 :: rest) z1 none) ≤ zoneVariance img z) ∧
      ∀ j : ℕ, ∀ hj : j < (z1 :: rest).length, j < i →
        zoneVariance img (spLoop img w h (z1 :: rest) z1 none) <
          zoneVariance img ((z1 :: rest).get ⟨j, hj⟩) := by
  rw [spLoop, if_pos (by rw [hgz, ltMinVar]; rfl)]
  rcases spLoop_argmin img w h rest z1 hgr with ⟨he, hmin⟩ | ⟨i, hi, he, hlt, hmin, hfirst⟩
  · refine ⟨0, by simp, by simpa using he, ?_, ?_⟩
    · intro z' hz'
      rcases List.mem_cons.mp hz' with rfl | hz'
      · rw [he]
      · rw [he]; exact hmin z' hz'
    · intro j hj hj0; omega
  · refine ⟨i + 1, by simpa using hi, by simpa using he, ?_, ?_⟩
    · intro z' hz'
      rcases List.mem_cons.mp hz' with rfl | hz'
      · rw [he]; exact le_of_lt hlt
      · rw [he]; exact hmin z' hz'
    · intro j hj hji
      rcases Nat.eq_zero_or_pos j with rfl | hjp
      · rw [he]; simpa using hlt
      · obtain ⟨j', rfl⟩ := Nat.exists_eq_succ_of_ne_zero (Nat.pos_iff_ne_zero.mp hjp)
        have hj' : j' < rest.length := by simpa using hj
        rw [he]
        simpa using hfirst j' hj' (by omega)

/-- C3 amended.  (1) For every image at least 201×101 — the sizes at which
all five candidate zones pass the in-bounds guard — `smart_adaptive_placement`
returns a candidate zone of minimal grayscale variance, and every earlier
candidate in the defined order (bottom-right first) has strictly larger
variance, so ties resolve deterministically to the earliest zone.
(2) For every fully uniform image of any size, the result is the
bottom-right zone.  (The original claim, quantifying over all images,
fails at a 200-wide image: see the counterexample.) -/
theorem C3_amended :
    (∀ img : RGBImg, 201 ≤ img.width → 101 ≤ img.height →
      ∃ i : ℕ, ∃ hi : i < (zonesList img.width img.height).length,
        smart_adaptive_placement img = (zonesList img.width img.height).get ⟨i, hi⟩ ∧
        (∀ z ∈ zonesList img.width img.height,
          zoneVariance img (smart_adaptive_placement img) ≤ zoneVariance img z) ∧
        ∀ j : ℕ, ∀ hj : j < (zonesList img.width img.height).length, j < i →
          zoneVariance img (smart_adaptive_placement img) <
            zoneVariance img ((zonesList img.width img.height).get ⟨j, hj⟩)) ∧
    (∀ (img : RGBImg) (c : ℚ), (∀ p : ℕ × ℕ, grayAt img p = c) →
      smart_adaptive_placement img =
        ((img.width : ℤ) - 200, (img.height : ℤ) - 100,
         (img.width : ℤ) - 20, (img.height : ℤ) - 20)) := by
  constructor
  · intro img hw hh
    set w := img.width with hwdef
    set h := img.height with hhdef
    have hg : ∀ z ∈ zonesList w h, spGuard w h z = true := by
      intro z hz
      simp only [zonesList, List.mem_cons, List.mem_singleton] at hz
      rcases hz with rfl | rfl | rfl | rfl | rfl | h0
      · simp only [spGuard, Bool.and_eq_true, decide_eq_true_eq]; omega
      · simp only [spGuard, Bool.and_eq_true, decide_eq_true_eq]; omega
      · simp only [spGuard, Bool.and_eq_true, decide_eq_true_eq]; omega
      · simp only [spGuard, Bool.and_eq_true, decide_eq_true_eq]; omega
      · simp only [spGuard, Bool.and_eq_true, decide_eq_true_eq]; omega
      · cases h0
    rw [smart_adaptive_placement]
    exact spLoop_entry img w h _ _
      (hg _ (List.mem_cons_self _ _))
      (fun z hz => hg z (List.mem_cons_of_mem _ hz))
  · intro img c hc
    have hv : ∀ r : Rect, zoneVariance img r = 0 :=
      fun r => fvar_const _ _ c (fun p _ => hc p)
    rw [smart_adaptive_placement]
    by_cases hBR : spGuard img.width img.height
        ((img.width : ℤ) - 200, (img.height : ℤ) - 100,
         (img.width : ℤ) - 20, (img.height : ℤ) - 20) = true
    · have step : spLoop img img.width img.height
          (zonesList img.width img.height)
          ((zonesList img.width img.height).headI) none
          = spLoop img img.width img.height
            [(20, (img.height : ℤ) - 100, 200, (img.height : ℤ) - 20),
             ((img.width : ℤ) - 200, 20, (img.width : ℤ) - 20, 100),
             (20, 20, 200, 100),
             ((img.width / 2 : ℕ) - 100, (img.height / 2 : ℕ) - 50,
              (img.width / 2 : ℕ) + 100, (img.height / 2 : ℕ) + 50)]
            ((img.width : ℤ) - 200, (img.height : ℤ) - 100,
             (img.width : ℤ) - 20, (img.height : ℤ) - 20)
            (some (zoneVariance img
              ((img.width : ℤ) - 200, (img.height : ℤ) - 100,
               (img.width : ℤ) - 20, (img.height : ℤ) - 20))) := by
        show spLoop img img.width img.height
          (((img.width : ℤ) - 200, (img.height : ℤ) - 100,
            (img.width : ℤ) - 20, (img.height : ℤ) - 20) ::
            [(20, (img.height : ℤ) - 100, 200, (img.height : ℤ) - 20),
             ((img.width : ℤ) - 200, 20, (img.width : ℤ) - 20, 100),
             (20, 20, 200, 100),
             ((img.width / 2 : ℕ) - 100, (img.height / 2 : ℕ) - 50,
              (img.width / 2 : ℕ) + 100, (img.height / 2 : ℕ) + 50)])
          ((img.width : ℤ) - 200, (img.height : ℤ) - 100,
           (img.width : ℤ) - 20, (img.height : ℤ) - 20) none = _
        rw [spLoop, if_pos (by rw [hBR, ltMinVar]; rfl)]
      rw [step, hv, spLoop_zerovar img _ _ _ _ (fun z _ => hv z)]
    · have hall : ∀ z ∈ zonesList img.width img.height,
          ¬ (spGuard img.width img.height z = true) := by
        intro z hz hzt
        apply hBR
        simp only [zonesList, List.mem_cons, List.mem_singleton] at hz
        simp only [spGuard, Bool.and_eq_true, decide_eq_true_eq]
        rcases hz with rfl | rfl | rfl | rfl | rfl | h0
        · simp only [spGuard, Bool.and_eq_true, decide_eq_true_eq] at hzt; omega
        · simp only [spGuard, Bool.and_eq_true, decide_eq_true_eq] at hzt; omega
        · simp only [spGuard, Bool.and_eq_true, decide_eq_true_eq] at hzt; omega
        · simp only [spGuard, Bool.and_eq_true, decide_eq_true_eq] at hzt; omega
        · simp only [spGuard, Bool.and_eq_true, decide_eq_true_eq] at hzt; omega
        · cases h0
      rw [spLoop_noguard img _ _ _ _ _ hall]
      rfl

/-! ### C3: which zone does SmartAdaptive select?

The loop in `smart_adaptive_placement` only compares the variances of
zones that pass the strict in-bounds guard `x2 < w and y2 < h and x1 >= 0
and y1 >= 0`.  On a 200×101 image the bottom-left, top-left and center
zones have `x2 = 200 = w` and are excluded, even though their regions
`gray[y1:y2, x1:x2]` are perfectly well defined (a numpy slice end equal
to the axis length is in range).  An image that is flat exactly on the
top-left zone but not on the two guarded zones therefore refutes
"selects the zone of minimum variance among the five candidates". -/

/-- Marker pixels of the C3 counterexample image: one in the bottom-right
region only, one in the bottom-left region (also inside bottom-right),
one in the top-right region only; none in the top-left region. -/
def markersF : Finset (ℕ × ℕ) := {(5, 5), (25, 5), (5, 90)}

/-- The 200×101 counterexample image: value 100 on the three markers,
0 elsewhere. -/
def cimg3 : RGBImg :=
  ⟨200, 101, fun x y => if (x, y) ∈ markersF then (100, 100, 100) else (0, 0, 0)⟩

/-- Pointwise grayscale of the counterexample image. -/
theorem gray_cimg3 (p : ℕ × ℕ) :
    grayAt cimg3 p = if p ∈ markersF then (100 : ℚ) else 0 := by
  obtain ⟨a, b⟩ := p
  by_cases h : (a, b) ∈ markersF
  · simp only [grayAt, cimg3, h, if_pos]
    norm_num
  · simp only [grayAt, cimg3, h, if_neg, if_false]
    norm_num

/-- Zone variance of the counterexample image, from the number of markers
inside the region and the region size. -/
theorem zoneVariance_cimg3 (r : Rect) (n k : ℕ)
    (hn : (rectRegion r).card = n) (hk : (markersF ∩ rectRegion r).card = k) :
    zoneVariance cimg3 r = 10000 * k / n - (100 * k / n) ^ 2 := by
  have h1 : ∑ p in rectRegion r, grayAt cimg3 p = (k : ℚ) * 100 := by
    rw [Finset.sum_congr rfl (fun p _ => gray_cimg3 p), sum_indicator, hk]
  have h2 : ∑ p in rectRegion r, (grayAt cimg3 p) ^ 2 = (k : ℚ) * 10000 := by
    have hpt : ∀ p ∈ rectRegion r,
        (grayAt cimg3 p) ^ 2 = if p ∈ markersF then (10000 : ℚ) else 0 := by
      intro p _
      rw [gray_cimg3]
      by_cases h : p ∈ markersF
      · rw [if_pos h, if_pos h]; norm_num
      · rw [if_neg h, if_neg h]; norm_num
    rw [Finset.sum_congr rfl hpt, sum_indicator, hk]
  rw [zoneVariance, fvar_eq, fmean, h1, h2, hn]
  ring

/-- Region size of the bottom-right zone of a 200×101 image. -/
theorem card_region_br :
    (rectRegion ((0 : ℤ), (1 : ℤ), (180 : ℤ), (81 : ℤ))).card = 14400 := by
  simp [rectRegion, Finset.card_product, Nat.card_Ico]

/-- Region size of the top-right zone of a 200×101 image. -/
theorem card_region_tr :
    (rectRegion ((0 : ℤ), (20 : ℤ), (180 : ℤ), (100 : ℤ))).card = 14400 := by
  simp [rectRegion, Finset.card_product, Nat.card_Ico]

/-- Region size of the top-left zone of a 200×101 image. -/
theorem card_region_tl :
    (rectRegion ((20 : ℤ), (20 : ℤ), (200 : ℤ), (100 : ℤ))).card = 14400 := by
  simp [rectRegion, Finset.card_product, Nat.card_Ico]

/-- Membership in a zone region, unfolded to coordinate bounds. -/
theorem mem_rectRegion (r : Rect) (a b : ℕ) :
    (a, b) ∈ rectRegion r ↔
      (r.1.toNat ≤ a ∧ a < r.2.2.1.toNat) ∧ r.2.1.toNat ≤ b ∧ b < r.2.2.2.toNat := by
  simp [rectRegion, Finset.mem_product, Finset.mem_Ico]

/-- The bottom-right region contains two markers. -/
theorem markers_br :
    (markersF ∩ rectRegion ((0 : ℤ), (1 : ℤ), (180 : ℤ), (81 : ℤ))).card = 2 := by
  have he : markersF ∩ rectRegion ((0 : ℤ), (1 : ℤ), (180 : ℤ), (81 : ℤ))
      = {(5, 5), (25, 5)} := by
    ext ⟨a, b⟩
    simp only [Finset.mem_inter, mem_rectRegion, markersF, Finset.mem_insert,
      Finset.mem_singleton, Prod.mk.injEq]
    norm_num
    omega
  rw [he]
  decide

/-- The top-right region contains one marker. -/
theorem markers_tr :
    (markersF ∩ rectRegion ((0 : ℤ), (20 : ℤ), (180 : ℤ), (100 : ℤ))).card = 1 := by
  have he : markersF ∩ rectRegion ((0 : ℤ), (20 : ℤ), (180 : ℤ), (100 : ℤ))
      = {(5, 90)} := by
    ext ⟨a, b⟩
    simp only [Finset.mem_inter, mem_rectRegion, markersF, Finset.mem_insert,
      Finset.mem_singleton, Prod.mk.injEq]
    norm_num
    omega
  rw [he]
  decide

/-- The top-left region contains no marker. -/
theorem markers_tl :
    (markersF ∩ rectRegion ((20 : ℤ), (20 : ℤ), (200 : ℤ), (100 : ℤ))).card = 0 := by
  have he : markersF ∩ rectRegion ((20 : ℤ), (20 : ℤ), (200 : ℤ), (100 : ℤ))
      = (∅ : Finset (ℕ × ℕ)) := by
    ext ⟨a, b⟩
    simp only [Finset.mem_inter, mem_rectRegion, markersF, Finset.mem_insert,
      Finset.mem_singleton, Prod.mk.injEq, Finset.not_mem_empty, iff_false]
    norm_num
    omega
  rw [he]
  decide

/-- C3 counterexample.  On the 200×101 marker image the placement loop
admits only the bottom-right and top-right zones (the other three fail the
strict guard `x2 < w`), and returns the top-right zone — although the
top-left candidate zone, whose grayscale region is perfectly well defined,
has strictly smaller variance (zero).  So SmartAdaptive does not select
the minimum-variance zone among the five candidates for every image. -/
theorem C3_counterexample :
    smart_adaptive_placement cimg3 = (0, 20, 180, 100) ∧
      (20, 20, 200, 100) ∈ zonesList cimg3.width cimg3.height ∧
      zoneVariance cimg3 ((20 : ℤ), (20 : ℤ), (200 : ℤ), (100 : ℤ)) <
        zoneVariance cimg3 ((0 : ℤ), (20 : ℤ), (180 : ℤ), (100 : ℤ)) := by
  have hBR : zoneVariance cimg3 ((0 : ℤ), (1 : ℤ), (180 : ℤ), (81 : ℤ))
      = 7199 / 5184 := by
    rw [zoneVariance_cimg3 _ 14400 2 card_region_br markers_br]; norm_num
  have hTR : zoneVariance cimg3 ((0 : ℤ), (20 : ℤ), (180 : ℤ), (100 : ℤ))
      = 14399 / 20736 := by
    rw [zoneVariance_cimg3 _ 14400 1 card_region_tr markers_tr]; norm_num
  have hTL : zoneVariance cimg3 ((20 : ℤ), (20 : ℤ), (200 : ℤ), (100 : ℤ)) = 0 := by
    rw [zoneVariance_cimg3 _ 14400 0 card_region_tl markers_tl]; norm_num
  refine ⟨?_, ?_, ?_⟩
  · have hz : zonesList cimg3.width cimg3.height =
        [((0 : ℤ), (1 : ℤ), (180 : ℤ), (81 : ℤ)),
         ((20 : ℤ), (1 : ℤ), (200 : ℤ), (81 : ℤ)),
         ((0 : ℤ), (20 : ℤ), (180 : ℤ), (100 : ℤ)),
         ((20 : ℤ), (20 : ℤ), (200 : ℤ), (100 : ℤ)),
         ((0 : ℤ), (0 : ℤ), (200 : ℤ), (100 : ℤ))] := by
      simp only [zonesList, cimg3]
      norm_num
    rw [smart_adaptive_placement, hz]
    rw [show cimg3.width = 200 from rfl, show cimg3.height = 101 from rfl]
    simp only [List.headI]
    rw [spLoop, if_pos (by rw [ltMinVar]; decide)]
    rw [spLoop, if_neg (by rw [Bool.and_eq_true]; rintro ⟨h, -⟩; revert h; decide)]
    rw [spLoop, if_pos (by
      rw [Bool.and_eq_true, ltMinVar, hBR, hTR]
      exact ⟨by decide, by norm_num⟩)]
    rw [spLoop, if_neg (by rw [Bool.and_eq_true]; rintro ⟨h, -⟩; revert h; decide)]
    rw [spLoop, if_neg (by rw [Bool.and_eq_true]; rintro ⟨h, -⟩; revert h; decide)]
    rw [spLoop]
  · have hz : zonesList cimg3.width cimg3.height =
        [((0 : ℤ), (1 : ℤ), (180 : ℤ), (81 : ℤ)),
         ((20 : ℤ), (1 : ℤ), (200 : ℤ), (81 : ℤ)),
         ((0 : ℤ), (20 : ℤ), (180 : ℤ), (100 : ℤ)),
         ((20 : ℤ), (20 : ℤ), (200 : ℤ), (100 : ℤ)),
         ((0 : ℤ), (0 : ℤ), (200 : ℤ), (100 : ℤ))] := by
      simp only [zonesList, cimg3]
      norm_num
    rw [hz]
    simp
  · rw [hTL, hTR]
    norm_num

/-- Witness for C1 amended: at the concrete 200×100 image the hypotheses
hold and the smart-adaptive rectangle is in bounds. -/
theorem C1_amended_witness :
    (200 ≤ img200.width ∧ 100 ≤ img200.height) ∧
      inBoundsRect (placementFor img200 ("smart_adaptive"))
        img200.width img200.height :=
  ⟨⟨by decide, by decide⟩,
    C1_amended img200 ("smart_adaptive") (by decide) (by decide)⟩

/-- A 210×110 uniform mid-gray image. -/
def unif210 : RGBImg := ⟨210, 110, fun _ _ => (50, 50, 50)⟩

/-- Witness for C3 amended: the uniform 210×110 image satisfies the
uniformity hypothesis, and the theorem places the watermark in the
bottom-right zone `(10, 10, 190, 90)`. -/
theorem C3_amended_witness :
    (∀ p : ℕ × ℕ, grayAt unif210 p = 50) ∧
      smart_adaptive_placement unif210 = (10, 10, 190, 90) := by
  have hc : ∀ p : ℕ × ℕ, grayAt unif210 p = 50 := by
    intro p
    simp only [grayAt, unif210]
    norm_num
  refine ⟨hc, ?_⟩
  rw [C3_amended.2 unif210 50 hc]
  norm_num [unif210]

end PixelFly

namespace PixelFly

/-! ## Enhancement decision engine (`services/photo_enhancer.py`)

`_detect_image_type`, `_detect_quality_issues`,
`_get_recommended_enhancements`, `_get_enhancement_parameters`,
`_fallback_analysis` and `_analyze_image_with_gemini`.

* `np.mean(img_array)` / `np.std(img_array)` range over *all* samples of
  the `h×w×3` RGB array.
* `cv2.cvtColor(..., COLOR_RGB2GRAY)` is the fixed-point ITU-R 601
  conversion `(4899·R + 9617·G + 1868·B + 8192) >> 14`.
* `cv2.Laplacian(gray, CV_64F)` with the default aperture is the 3×3
  kernel `[[0,1,0],[1,-4,1],[0,1,0]]` with `BORDER_REFLECT_101` edge
  handling (single-step reflection; the claims below evaluate it only on
  images with both dimensions at least 2, where single-step reflection is
  exact).
* The Python `list(set(enhancements))` is modelled as `List.dedup`: the
  CPython iteration order of a `set` is unspecified, but membership and
  duplicate-freeness — all any claim needs — are order-independent.
-/

/-- Single-step `BORDER_REFLECT_101` index reflection onto `[0, n)`. -/
def refl101 (n : ℕ) (i : ℤ) : ℕ :=
  if i < 0 then (-i).toNat
  else if n ≤ i.toNat then 2 * n - 2 - i.toNat
  else i.toNat

/-- `cv2.cvtColor(img, COLOR_RGB2GRAY)` at one pixel (fixed-point,
truncating shift). -/
def cvGrayAt (img : RGBImg) (x y : ℕ) : ℚ :=
  let c := img.pix x y
  ((⌊(4899 * c.1 + 9617 * c.2.1 + 1868 * c.2.2 + 8192) / 16384⌋ : ℤ) : ℚ)

/-- One response of `cv2.Laplacian(gray, CV_64F)` (3×3 kernel
`[[0,1,0],[1,-4,1],[0,1,0]]`, reflected borders). -/
def lapAt (img : RGBImg) (x y : ℕ) : ℚ :=
  cvGrayAt img (refl101 img.width ((x : ℤ) - 1)) y +
    cvGrayAt img (refl101 img.width ((x : ℤ) + 1)) y +
    cvGrayAt img x (refl101 img.height ((y : ℤ) - 1)) +
    cvGrayAt img x (refl101 img.height ((y : ℤ) + 1)) -
    4 * cvGrayAt img x y

/-- `cv2.Laplacian(gray, cv2.CV_64F).var()`: the blur score. -/
def blurScore (img : RGBImg) : ℚ :=
  fvar (gridF img.width img.height) (fun p => lapAt img p.1 p.2)

/-- Sum of the three channels at one pixel. -/
def chanSum (img : RGBImg) (p : ℕ × ℕ) : ℚ :=
  let c := img.pix p.1 p.2
  c.1 + c.2.1 + c.2.2

/-- `np.mean(img_array)` over all `3·w·h` samples. -/
def sampleMean (img : RGBImg) : ℚ :=
  (∑ p in gridF img.width img.height, chanSum img p) /
    ((3 * img.width * img.height : ℕ) : ℚ)

/-- `np.var(img_array)` over all `3·w·h` samples (`np.std` squared; the
detection thresholds on `np.std` are compared squared, exactly). -/
def sampleVar (img : RGBImg) : ℚ :=
  (∑ p in gridF img.width img.height,
    (((img.pix p.1 p.2).1 - sampleMean img) ^ 2 +
      ((img.pix p.1 p.2).2.1 - sampleMean img) ^ 2 +
      ((img.pix p.1 p.2).2.2 - sampleMean img) ^ 2)) /
    ((3 * img.width * img.height : ℕ) : ℚ)

/-- `_detect_image_type`: aspect-ratio heuristics. -/
def detect_image_type (img : RGBImg) : String :=
  let a : ℚ := (img.width : ℚ) / (img.height : ℚ)
  if 7/10 ≤ a ∧ a ≤ 13/10 then "portrait"
  else if 3/2 < a then "landscape"
  else if a < 7/10 then "vertical"
  else "general"

/-- `_detect_quality_issues`: `blur` when the Laplacian variance is below
100; `low_contrast` when `np.std < 50` (variance below 2500); `noise`
when `np.std > 80` (variance above 6400); `low_light` when the mean is
below 80, else `overexposed` when above 200 (`elif`: mutually
exclusive). -/
def detect_quality_issues (img : RGBImg) : List String :=
  (if blurScore img < 100 then ["blur"] else []) ++
    (if sampleVar img < 2500 then ["low_contrast"] else []) ++
    (if sampleVar img > 6400 then ["noise"] else []) ++
    (if sampleMean img < 80 then ["low_light"]
     else if sampleMean img > 200 then ["overexposed"] else [])

/-- `_get_recommended_enhancements`: issue-driven operations, then
category-specific additions, then the always-appended basics, then
`list(set(...))` (modelled `dedup`; see the section comment). -/
def get_recommended_enhancements (img : RGBImg) (etype : String) : List String :=
  let issues := detect_quality_issues img
  ((if "blur" ∈ issues then ["sharpening"] else []) ++
    (if "low_contrast" ∈ issues then ["contrast_enhancement"] else []) ++
    (if "noise" ∈ issues then ["noise_reduction"] else []) ++
    (if "low_light" ∈ issues then ["brightness_adjustment"] else []) ++
    (if etype = "portrait" then ["skin_smoothing", "eye_enhancement"]
     else if etype = "landscape" then ["color_saturation", "sky_enhancement"]
     else if etype = "food" then ["color_warmth", "texture_enhancement"]
     else []) ++
    ["color_balance", "detail_enhancement"]).dedup

/-- A parameter value from the advisory JSON: a number, or anything else
(the prompt's own template suggests range strings such as `"1.0-2.0"`,
which a vision model may echo verbatim); a non-numeric value raises
`TypeError` when it reaches a PIL enhancement factor. -/
inductive PVal where
  | num (q : ℚ)
  | malformed
deriving DecidableEq

/-- `dict.get(key, default)` over the parameter dictionary. -/
def pget (ps : List (String × PVal)) (k : String) (d : ℚ) : PVal :=
  (ps.lookup k).getD (.num d)

/-- `_get_enhancement_parameters`: fixed numeric defaults. -/
def default_parameters : List (String × PVal) :=
  [("sharpness", .num (13/10)), ("contrast", .num (6/5)),
   ("brightness", .num (11/10)), ("saturation", .num (23/20)),
   ("noise_reduction", .num (4/5))]

/-- The analysis record consumed by the executor (the dictionary built by
`_analyze_image_with_gemini` / `_fallback_analysis`). -/
structure Analysis where
  imageType : String
  qualityIssues : List String
  recommendedEnhancements : List String
  enhancementParameters : List (String × PVal)
  qualityImprovement : ℚ
  confidence : ℚ

/-- `_fallback_analysis`: issues are recomputed from the image, but the
recommended plan is the fixed three-element list, the quality improvement
is 0.25 and the confidence is 0.6. -/
def fallback_analysis (img : RGBImg) (_etype : String) : Analysis :=
  { imageType := detect_image_type img
    qualityIssues := detect_quality_issues img
    recommendedEnhancements := ["sharpening", "contrast_enhancement", "color_balance"]
    enhancementParameters := default_parameters
    qualityImprovement := 1/4
    confidence := 3/5 }

/-- The parsed JSON of a successful advisory (Gemini) response; each field
may be absent. -/
structure GeminiJson where
  imageType : Option String
  qualityIssues : Option (List String)
  recommendedEnhancements : Option (List String)
  enhancementParameters : Option (List (String × PVal))
  qualityImprovement : Option ℚ
  confidence : Option ℚ

/-- Outcome of the external advisory call: the service may be
unconfigured, the call may raise / time out / return unparseable text, or
it may deliver parsed JSON. -/
inductive AdvisoryOutcome where
  | unavailable
  | failure
  | parsed (j : GeminiJson)

/-- `_analyze_image_with_gemini`: on a parsed advisory response each field
is taken from the JSON with a per-field fallback default; on any failure
(or no configured service) the whole analysis is `_fallback_analysis`.
Total: the Python wraps everything in `try/except` whose handler returns
the fallback, so no exception escapes. -/
def analyze_image_with_gemini (o : AdvisoryOutcome) (img : RGBImg)
    (etype : String) : Analysis :=
  match o with
  | .parsed j =>
    { imageType := j.imageType.getD (detect_image_type img)
      qualityIssues := j.qualityIssues.getD (detect_quality_issues img)
      recommendedEnhancements :=
        j.recommendedEnhancements.getD (get_recommended_enhancements img etype)
      enhancementParameters := j.enhancementParameters.getD default_parameters
      qualityImprovement := j.qualityImprovement.getD (7/20)
      confidence := j.confidence.getD (17/20) }
  | _ => fallback_analysis img etype

end PixelFly

namespace PixelFly

/-- The pixel grid has `w·h` cells. -/
theorem card_gridF (w h : ℕ) : (gridF w h).card = w * h := by
  simp [gridF]

/-- The Laplacian response vanishes on an image of constant cv2
grayscale. -/
theorem lapAt_const (img : RGBImg) (g0 : ℚ)
    (hg : ∀ x y, cvGrayAt img x y = g0) (x y : ℕ) : lapAt img x y = 0 := by
  simp only [lapAt, hg]
  ring

/-- The blur score vanishes on an image of constant cv2 grayscale. -/
theorem blurScore_const (img : RGBImg) (g0 : ℚ)
    (hg : ∀ x y, cvGrayAt img x y = g0) : blurScore img = 0 :=
  fvar_const _ _ 0 (fun p _ => lapAt_const img g0 hg p.1 p.2)

/-- Mean of all samples of a constant image. -/
theorem sampleMean_const (img : RGBImg) (c : ℚ)
    (hpix : ∀ x y, img.pix x y = (c, c, c))
    (hnz : img.width * img.height ≠ 0) : sampleMean img = c := by
  have hsum : ∀ p ∈ gridF img.width img.height, chanSum img p = 3 * c := by
    intro p _
    simp [chanSum, hpix]
    ring
  have hq3 : ((3 * img.width * img.height : ℕ) : ℚ) ≠ 0 := by
    rw [Nat.cast_ne_zero]
    intro h
    apply hnz
    rcases Nat.mul_eq_zero.mp h with h1 | h1
    · rcases Nat.mul_eq_zero.mp h1 with h2 | h2
      · exact absurd h2 (by decide)
      · simp [h2]
    · simp [h1]
  rw [sampleMean, Finset.sum_congr rfl hsum, Finset.sum_const, card_gridF,
    nsmul_eq_mul, div_eq_iff hq3]
  push_cast
  ring

/-- Variance of all samples of a constant image. -/
theorem sampleVar_const (img : RGBImg) (c : ℚ)
    (hpix : ∀ x y, img.pix x y = (c, c, c)) : sampleVar img = 0 := by
  rcases eq_or_ne (img.width * img.height) 0 with hz | hnz
  · have hcard : (gridF img.width img.height).card = 0 := by
      rw [card_gridF]; exact hz
    rw [sampleVar, Finset.card_eq_zero.mp hcard]
    simp
  · have hm := sampleMean_const img c hpix hnz
    have hterm : ∀ p ∈ gridF img.width img.height,
        (((img.pix p.1 p.2).1 - sampleMean img) ^ 2 +
          ((img.pix p.1 p.2).2.1 - sampleMean img) ^ 2 +
          ((img.pix p.1 p.2).2.2 - sampleMean img) ^ 2) = 0 := by
      intro p _
      rw [hpix, hm]
      ring
    rw [sampleVar, Finset.sum_congr rfl hterm, Finset.sum_const]
    simp

/-- A 4×4 all-black image. -/
def z4 : RGBImg := ⟨4, 4, fun _ _ => (0, 0, 0)⟩

/-- A 4×4 all-white image. -/
def w4 : RGBImg := ⟨4, 4, fun _ _ => (255, 255, 255)⟩

/-- cv2 grayscale of the black image. -/
theorem cvGray_z4 (x y : ℕ) : cvGrayAt z4 x y = 0 := by
  simp only [cvGrayAt, z4]
  norm_num

/-- cv2 grayscale of the white image. -/
theorem cvGray_w4 (x y : ℕ) : cvGrayAt w4 x y = 255 := by
  simp only [cvGrayAt, w4]
  have hf : ⌊(4899 * (255 : ℚ) + 9617 * 255 + 1868 * 255 + 8192) / 16384⌋
      = 255 := by
    rw [Int.floor_eq_iff]
    constructor
    · norm_num
    · norm_num
  rw [hf]
  norm_num

/-- Quality issues of the black image: blur, low contrast, low light. -/
theorem issues_z4 :
    detect_quality_issues z4 = ["blur", "low_contrast", "low_light"] := by
  rw [detect_quality_issues,
    blurScore_const z4 0 cvGray_z4,
    sampleVar_const z4 0 (fun _ _ => rfl),
    sampleMean_const z4 0 (fun _ _ => rfl) (by decide)]
  norm_num

/-- Quality issues of the white image: blur, low contrast, overexposed. -/
theorem issues_w4 :
    detect_quality_issues w4 = ["blur", "low_contrast", "overexposed"] := by
  rw [detect_quality_issues,
    blurScore_const w4 255 cvGray_w4,
    sampleVar_const w4 255 (fun _ _ => rfl),
    sampleMean_const w4 255 (fun _ _ => rfl) (by decide)]
  norm_num

/-- Rule-table plan for the black image. -/
theorem plan_z4 :
    get_recommended_enhancements z4 ("auto")
      = ["sharpening", "contrast_enhancement", "brightness_adjustment",
         "color_balance", "detail_enhancement"] := by
  rw [get_recommended_enhancements, issues_z4]
  decide

/-- Rule-table plan for the white image. -/
theorem plan_w4 :
    get_recommended_enhancements w4 ("auto")
      = ["sharpening", "contrast_enhancement", "color_balance",
         "detail_enhancement"] := by
  rw [get_recommended_enhancements, issues_w4]
  decide

end PixelFly

namespace PixelFly

/-- C2 counterexample.  On the 4×4 near-black image the rule-table plan
derived from the metrics contains `brightness_adjustment` and
`detail_enhancement`, but the Decision Engine's advisory-failure result is
the fixed three-element fallback plan, which contains neither: the
fallback plan is *not* the issue-by-issue rule-table plan computed from the
same metrics. -/
theorem C2_counterexample :
    (analyze_image_with_gemini .failure z4 ("auto")).recommendedEnhancements
        = ["sharpening", "contrast_enhancement", "color_balance"] ∧
      get_recommended_enhancements z4 ("auto")
        = ["sharpening", "contrast_enhancement", "brightness_adjustment",
           "color_balance", "detail_enhancement"] ∧
      (analyze_image_with_gemini .failure z4 ("auto")).recommendedEnhancements
        ≠ get_recommended_enhancements z4 ("auto") := by
  refine ⟨rfl, plan_z4, ?_⟩
  rw [plan_z4]
  decide

/-- C2 amended.  Whenever the advisory call is unavailable or fails, the
Decision Engine terminates normally (the embedding is a total function)
with exactly `_fallback_analysis`: a *fixed* plan
`[sharpening, contrast_enhancement, color_balance]` — not the rule-table
plan recomputed from the metrics — quality issues that *are* recomputed
from the image, and confidence exactly 0.6, which is at most the fixed
fallback confidence value 0.6. -/
theorem C2_amended (img : RGBImg) (etype : String) (o : AdvisoryOutcome)
    (ho : o = .unavailable ∨ o = .failure) :
    analyze_image_with_gemini o img etype = fallback_analysis img etype ∧
      (analyze_image_with_gemini o img etype).recommendedEnhancements
        = ["sharpening", "contrast_enhancement", "color_balance"] ∧
      (analyze_image_with_gemini o img etype).qualityIssues
        = detect_quality_issues img ∧
      (analyze_image_with_gemini o img etype).confidence ≤ 3/5 := by
  rcases ho with rfl | rfl
  · exact ⟨rfl, rfl, rfl, le_refl _⟩
  · exact ⟨rfl, rfl, rfl, le_refl _⟩

/-- Witness for C2 amended, at the concrete black image and a failing
advisory call. -/
theorem C2_amended_witness :
    (AdvisoryOutcome.failure = AdvisoryOutcome.unavailable ∨
      AdvisoryOutcome.failure = AdvisoryOutcome.failure) ∧
      (analyze_image_with_gemini .failure z4 ("auto")).confidence ≤ 3/5 :=
  ⟨Or.inr rfl, (C2_amended z4 ("auto") .failure (Or.inr rfl)).2.2.2⟩

/-- C6 counterexample.  A parsed advisory response whose recommended list
repeats an operation kind is passed through verbatim: the final plan
contains `sharpening` twice, so deduplication does not hold on the
advisory path. -/
theorem C6_counterexample :
    (analyze_image_with_gemini
        (.parsed ⟨none, none, some ["sharpening", "sharpening"], none, none, none⟩)
        z4 ("auto")).recommendedEnhancements
      = ["sharpening", "sharpening"] ∧
      ¬ (analyze_image_with_gemini
          (.parsed ⟨none, none, some ["sharpening", "sharpening"], none, none, none⟩)
          z4 ("auto")).recommendedEnhancements.Nodup := by
  refine ⟨rfl, ?_⟩
  intro h
  rw [show (analyze_image_with_gemini
      (.parsed ⟨none, none, some ["sharpening", "sharpening"], none, none, none⟩)
      z4 ("auto")).recommendedEnhancements = ["sharpening", "sharpening"] from rfl] at h
  exact absurd h (by decide)

/-- C6 amended.  The rule-table plan is always duplicate-free
(`list(set(...))`), as are the fixed fallback plan and the plan obtained
when a parsed advisory response omits the recommendation key; but a
recommendation list *provided* by the advisory response is used verbatim
and may contain duplicates (see the counterexample). -/
theorem C6_amended :
    (∀ (img : RGBImg) (etype : String),
      (get_recommended_enhancements img etype).Nodup) ∧
    (∀ (img : RGBImg) (etype : String),
      (fallback_analysis img etype).recommendedEnhancements.Nodup) ∧
    (∀ (img : RGBImg) (etype : String) (j : GeminiJson),
      j.recommendedEnhancements = none →
      (analyze_image_with_gemini (.parsed j) img etype).recommendedEnhancements.Nodup) := by
  refine ⟨?_, ?_, ?_⟩
  · intro img etype
    exact List.nodup_dedup _
  · intro img etype
    show (["sharpening", "contrast_enhancement", "color_balance"]
      : List String).Nodup
    decide
  · intro img etype j hj
    show (j.recommendedEnhancements.getD
      (get_recommended_enhancements img etype)).Nodup
    rw [hj]
    exact List.nodup_dedup _

/-- Witness for C6 amended: a parsed advisory response with every field
absent falls back to the (duplicate-free) rule-table plan. -/
theorem C6_amended_witness :
    ((⟨none, none, none, none, none, none⟩ : GeminiJson).recommendedEnhancements
        = none) ∧
      (analyze_image_with_gemini
        (.parsed ⟨none, none, none, none, none, none⟩)
        z4 ("auto")).recommendedEnhancements.Nodup :=
  ⟨rfl, C6_amended.2.2 z4 ("auto") ⟨none, none, none, none, none, none⟩ rfl⟩

end PixelFly

namespace PixelFly

/-- An element absent from both branches is absent from the `if`. -/
theorem not_mem_ite_of {α : Type} {P : Prop} [Decidable P] {a : α}
    {l1 l2 : List α} (h1 : a ∉ l1) (h2 : a ∉ l2) :
    a ∉ (if P then l1 else l2) := by
  by_cases hP : P
  · rw [if_pos hP]; exact h1
  · rw [if_neg hP]; exact h2

/-- The sequence of enhancement steps applied by `enhance_image_smart`
(`api/index.py`), as (step, factor) pairs in application order: contrast
1.3 when the sample variance is below 2500 (`np.std < 50`), brightness
1.2 when the mean is below 100 / 0.9 when above 200 (`elif`), then the
unconditional color 1.1 and unsharp-mask (percent 120) steps. -/
def smart_enhance_ops (img : RGBImg) : List (String × ℚ) :=
  (if sampleVar img < 2500 then [("contrast", 13/10)] else []) ++
    (if sampleMean img < 100 then [("brightness", 6/5)]
     else if sampleMean img > 200 then [("brightness", 9/10)] else []) ++
    [("color", 11/10), ("unsharp_mask", 120)]

/-- C5 counterexample.  The 4×4 all-white image has brightness 255, above
the bright threshold 200, and is detected `overexposed`; yet the Decision
Engine's plan contains no `brightness_adjustment` operation of any kind
— the rule table maps `overexposed` to nothing, so no BrightnessAdjust
reduce is ever appended. -/
theorem C5_counterexample :
    sampleMean w4 = 255 ∧ (200 : ℚ) < sampleMean w4 ∧
      "overexposed" ∈ detect_quality_issues w4 ∧
      "brightness_adjustment" ∉ get_recommended_enhancements w4 ("auto") ∧
      get_recommended_enhancements w4 ("auto")
        = ["sharpening", "contrast_enhancement", "color_balance",
           "detail_enhancement"] := by
  have hm : sampleMean w4 = 255 := sampleMean_const w4 255 (fun _ _ => rfl) (by decide)
  refine ⟨hm, by rw [hm]; norm_num, ?_, ?_, plan_w4⟩
  · rw [issues_w4]; decide
  · rw [plan_w4]; decide

/-- C5 amended.  In the Decision Engine (`photo_enhancer`), the
dark/bright detections are mutually exclusive and a dark image gets the
`brightness_adjustment` boost — but a bright image gets *no* brightness
operation at all (there is no BrightnessAdjust reduce in the rule table).
In `enhance_image_smart` (`api/index.py`), the boost (factor 1.2) and the
reduce (factor 0.9) are mutually exclusive exactly as the original claim
states. -/
theorem C5_amended :
    (∀ (img : RGBImg) (etype : String), sampleMean img < 80 →
      "low_light" ∈ detect_quality_issues img ∧
      "overexposed" ∉ detect_quality_issues img ∧
      "brightness_adjustment" ∈ get_recommended_enhancements img etype) ∧
    (∀ (img : RGBImg) (etype : String), 200 < sampleMean img →
      "overexposed" ∈ detect_quality_issues img ∧
      "low_light" ∉ detect_quality_issues img ∧
      "brightness_adjustment" ∉ get_recommended_enhancements img etype) ∧
    (∀ img : RGBImg, sampleMean img < 100 →
      ("brightness", (6/5 : ℚ)) ∈ smart_enhance_ops img ∧
      ("brightness", (9/10 : ℚ)) ∉ smart_enhance_ops img) ∧
    (∀ img : RGBImg, 200 < sampleMean img →
      ("brightness", (9/10 : ℚ)) ∈ smart_enhance_ops img ∧
      ("brightness", (6/5 : ℚ)) ∉ smart_enhance_ops img) := by
  refine ⟨?_, ?_, ?_, ?_⟩
  · intro img etype hm
    have hll : "low_light" ∈ detect_quality_issues img := by
      simp [detect_quality_issues, hm]
    refine ⟨hll, ?_, ?_⟩
    · intro h
      have hA : "overexposed" ∉
          (if blurScore img < 100 then ["blur"] else ([] : List String)) :=
        not_mem_ite_of (by decide) (by decide)
      have hB : "overexposed" ∉
          (if sampleVar img < 2500 then ["low_contrast"] else ([] : List String)) :=
        not_mem_ite_of (by decide) (by decide)
      have hC : "overexposed" ∉
          (if sampleVar img > 6400 then ["noise"] else ([] : List String)) :=
        not_mem_ite_of (by decide) (by decide)
      simp only [detect_quality_issues, List.mem_append, if_pos hm] at h
      have hD : "overexposed" ∉ (["low_light"] : List String) := by decide
      tauto
    · have hseg : "brightness_adjustment" ∈
          (if "low_light" ∈ detect_quality_issues img
            then ["brightness_adjustment"] else ([] : List String)) := by
        rw [if_pos hll]; decide
      simp only [get_recommended_enhancements, List.mem_dedup, List.mem_append]
      tauto
  · intro img etype hm
    have hm80 : ¬ (sampleMean img < 80) := by linarith
    have hov : "overexposed" ∈ detect_quality_issues img := by
      simp only [detect_quality_issues, List.mem_append, if_neg hm80]
      have : sampleMean img > 200 := hm
      simp [this]
    have hll : "low_light" ∉ detect_quality_issues img := by
      intro h
      have hA : "low_light" ∉
          (if blurScore img < 100 then ["blur"] else ([] : List String)) :=
        not_mem_ite_of (by decide) (by decide)
      have hB : "low_light" ∉
          (if sampleVar img < 2500 then ["low_contrast"] else ([] : List String)) :=
        not_mem_ite_of (by decide) (by decide)
      have hC : "low_light" ∉
          (if sampleVar img > 6400 then ["noise"] else ([] : List String)) :=
        not_mem_ite_of (by decide) (by decide)
      have hD : "low_light" ∉
          (if sampleMean img > 200 then ["overexposed"] else ([] : List String)) :=
        not_mem_ite_of (by decide) (by decide)
      simp only [detect_quality_issues, List.mem_append, if_neg hm80] at h
      tauto
    refine ⟨hov, hll, ?_⟩
    intro h
    have hA : "brightness_adjustment" ∉
        (if "blur" ∈ detect_quality_issues img
          then ["sharpening"] else ([] : List String)) :=
      not_mem_ite_of (by decide) (by decide)
    have hB : "brightness_adjustment" ∉
        (if "low_contrast" ∈ detect_quality_issues img
          then ["contrast_enhancement"] else ([] : List String)) :=
      not_mem_ite_of (by decide) (by decide)
    have hC : "brightness_adjustment" ∉
        (if "noise" ∈ detect_quality_issues img
          then ["noise_reduction"] else ([] : List String)) :=
      not_mem_ite_of (by decide) (by decide)
    have hD : "brightness_adjustment" ∉
        (if "low_light" ∈ detect_quality_issues img
          then ["brightness_adjustment"] else ([] : List String)) := by
      rw [if_neg hll]; decide
    have hE : "brightness_adjustment" ∉
        (if etype = "portrait" then ["skin_smoothing", "eye_enhancement"]
         else if etype = "landscape" then ["color_saturation", "sky_enhancement"]
         else if etype = "food" then ["color_warmth", "texture_enhancement"]
         else ([] : List String)) :=
      not_mem_ite_of (by decide)
        (not_mem_ite_of (by decide) (not_mem_ite_of (by decide) (by decide)))
    have hF : "brightness_adjustment" ∉
        (["color_balance", "detail_enhancement"] : List String) := by decide
    simp only [get_recommended_enhancements, List.mem_dedup, List.mem_append] at h
    tauto
  · intro img hm
    constructor
    · simp [smart_enhance_ops, hm]
    · intro h
      have hA : ("brightness", (9/10 : ℚ)) ∉
          (if sampleVar img < 2500
            then [("contrast", (13/10 : ℚ))] else []) :=
        not_mem_ite_of (by decide) (by decide)
      have hB : ("brightness", (9/10 : ℚ)) ∉
          ([("brightness", (6/5 : ℚ))] : List (String × ℚ)) := by norm_num
      have hC : ("brightness", (9/10 : ℚ)) ∉
          ([("color", (11/10 : ℚ)), ("unsharp_mask", 120)] : List (String × ℚ)) := by
        decide
      simp only [smart_enhance_ops, List.mem_append, if_pos hm] at h
      tauto
  · intro img hm
    have hm100 : ¬ (sampleMean img < 100) := by linarith
    have hm200 : sampleMean img > 200 := hm
    constructor
    · simp [smart_enhance_ops, hm100, hm200]
    · intro h
      have hA : ("brightness", (6/5 : ℚ)) ∉
          (if sampleVar img < 2500
            then [("contrast", (13/10 : ℚ))] else []) :=
        not_mem_ite_of (by decide) (by decide)
      have hB : ("brightness", (6/5 : ℚ)) ∉
          ([("brightness", (9/10 : ℚ))] : List (String × ℚ)) := by norm_num
      have hC : ("brightness", (6/5 : ℚ)) ∉
          ([("color", (11/10 : ℚ)), ("unsharp_mask", 120)] : List (String × ℚ)) := by
        decide
      simp only [smart_enhance_ops, List.mem_append, if_neg hm100,
        if_pos hm200] at h
      tauto

/-- Witness for C5 amended: the all-black 4×4 image is below the dark
threshold and its plan contains the brightness boost. -/
theorem C5_amended_witness :
    sampleMean z4 < 80 ∧
      "brightness_adjustment" ∈ get_recommended_enhancements z4 ("auto") := by
  have hm : sampleMean z4 < 80 := by
    rw [sampleMean_const z4 0 (fun _ _ => rfl) (by decide)]
    norm_num
  exact ⟨hm, (C5_amended.1 z4 ("auto") hm).2.2⟩

end PixelFly

namespace PixelFly

/-! ## Enhancement executor (`photo_enhancer._apply_enhancements`)

The Python body:

```python
enhanced_image = image.copy()
try:
    if "sharpening" in enhancements: ... UnsharpMask(percent=int(p*100)) ...
    if "contrast_enhancement" in enhancements: ImageEnhance.Contrast...
    if "brightness_adjustment" in enhancements: ImageEnhance.Brightness...
    if "color_saturation" in enhancements: ImageEnhance.Color...
    if "noise_reduction" in enhancements: MedianFilter(3)
    if "color_balance" in enhancements: self._apply_color_balance(...)
    if "detail_enhancement" in enhancements: ImageFilter.DETAIL
    return enhanced_image
except Exception:
    return image          # the ORIGINAL image, not the partial result
```

One `try` wraps the whole sequence: a failing step aborts everything and
the fallback is the unmodified source.  The four `ImageEnhance` /
`UnsharpMask` steps take a factor from the (possibly advisory-supplied)
parameter dictionary and raise `TypeError` on a non-numeric factor; the
parameterless steps cannot raise on an RGB image, and
`_apply_color_balance` has its own internal `try` that returns its input
unchanged on failure.

PIL modelling notes:
* `convert("L")` is `(19595·R + 38470·G + 7471·B + 0x8000) >> 16`.
* `ImageEnhance.X(im).enhance(f)` is `Image.blend(degenerate, im, f)`
  where the degenerate image is black (Brightness), the constant
  `int(L_mean + 0.5)` gray (Contrast), or the per-pixel grayscale
  (Color); `blend` computes `in1 + f*(in2-in1)` per sample, clipped to
  `[0,255]` and truncated to `UINT8` (`q8`).
* The Gaussian blur inside `UnsharpMask(radius=2)` is approximated by a
  3×3 box mean — no claim below depends on sharpened pixel values; the
  percent/threshold plumbing and the failure behaviour are exact.
* `MedianFilter(3)` is the per-channel median of the 3×3 neighbourhood,
  `DETAIL` the fixed PIL kernel `(0,-1,0,-1,10,-1,0,-1,0)/6` with the
  one-pixel border copied unchanged.
* `_apply_color_balance` is the per-channel 2nd/98th numpy linear
  percentile stretch; on a 3-channel array the numpy code cannot raise
  (a degenerate `p98 == p2` yields non-finite values, not an exception),
  so its internal `except` branch is dead in this RGB embedding. -/

/-- `convert("L")` at one pixel (fixed-point, truncating shift). -/
def pilLumaAt (img : RGBImg) (x y : ℕ) : ℚ :=
  let c := img.pix x y
  ((⌊(19595 * c.1 + 38470 * c.2.1 + 7471 * c.2.2 + 32768) / 65536⌋ : ℤ) : ℚ)

/-- `ImageStat.Stat(image.convert("L")).mean[0]`. -/
def lumaMean (img : RGBImg) : ℚ :=
  fmean (gridF img.width img.height) (fun p => pilLumaAt img p.1 p.2)

/-- One sample of `Image.blend(im1, im2, f)`. -/
def blend8 (a b f : ℚ) : ℚ := q8 (a + f * (b - a))

/-- `ImageEnhance.Contrast(img).enhance(f)`. -/
def contrast_enhance (img : RGBImg) (f : ℚ) : RGBImg :=
  let m : ℚ := ((⌊lumaMean img + 1/2⌋ : ℤ) : ℚ)
  ⟨img.width, img.height, fun x y =>
    let c := img.pix x y
    (blend8 m c.1 f, blend8 m c.2.1 f, blend8 m c.2.2 f)⟩

/-- `ImageEnhance.Brightness(img).enhance(f)` (degenerate image black). -/
def brightness_enhance (img : RGBImg) (f : ℚ) : RGBImg :=
  ⟨img.width, img.height, fun x y =>
    let c := img.pix x y
    (blend8 0 c.1 f, blend8 0 c.2.1 f, blend8 0 c.2.2 f)⟩

/-- `ImageEnhance.Color(img).enhance(f)` (degenerate image the per-pixel
grayscale). -/
def saturation_enhance (img : RGBImg) (f : ℚ) : RGBImg :=
  ⟨img.width, img.height, fun x y =>
    let l := pilLumaAt img x y
    let c := img.pix x y
    (blend8 l c.1 f, blend8 l c.2.1 f, blend8 l c.2.2 f)⟩

/-- Clamp an index to `[0, n)` (replicated edges). -/
def clampIdx (n : ℕ) (i : ℤ) : ℕ :=
  if i < 0 then 0 else if (n : ℤ) - 1 < i then n - 1 else i.toNat

/-- 3×3 box mean of one channel (the Gaussian-blur approximation). -/
def box3At (img : RGBImg) (sel : ℚ × ℚ × ℚ → ℚ) (x y : ℕ) : ℚ :=
  (sel (img.pix (clampIdx img.width ((x : ℤ) - 1)) (clampIdx img.height ((y : ℤ) - 1))) +
   sel (img.pix x (clampIdx img.height ((y : ℤ) - 1))) +
   sel (img.pix (clampIdx img.width ((x : ℤ) + 1)) (clampIdx img.height ((y : ℤ) - 1))) +
   sel (img.pix (clampIdx img.width ((x : ℤ) - 1)) y) +
   sel (img.pix x y) +
   sel (img.pix (clampIdx img.width ((x : ℤ) + 1)) y) +
   sel (img.pix (clampIdx img.width ((x : ℤ) - 1)) (clampIdx img.height ((y : ℤ) + 1))) +
   sel (img.pix x (clampIdx img.height ((y : ℤ) + 1))) +
   sel (img.pix (clampIdx img.width ((x : ℤ) + 1)) (clampIdx img.height ((y : ℤ) + 1)))) / 9

/-- One channel of `UnsharpMask(radius=2, percent, threshold=3)`. -/
def unsharpChan (img : RGBImg) (percent : ℤ) (sel : ℚ × ℚ × ℚ → ℚ)
    (x y : ℕ) : ℚ :=
  let p := sel (img.pix x y)
  let bl := box3At img sel x y
  if 3 ≤ |p - bl| then q8 (p + (percent : ℚ) / 100 * (p - bl)) else p

/-- `UnsharpMask(radius=2, percent=int(p*100), threshold=3)`. -/
def unsharp_mask (img : RGBImg) (percent : ℤ) : RGBImg :=
  ⟨img.width, img.height, fun x y =>
    (unsharpChan img percent (fun c => c.1) x y,
     unsharpChan img percent (fun c => c.2.1) x y,
     unsharpChan img percent (fun c => c.2.2) x y)⟩

/-- Median of a list (its middle element once sorted), used for the 3×3
median filter. -/
def median9 (l : List ℚ) : ℚ := (l.insertionSort (· ≤ ·)).getD 4 0

/-- The 3×3 neighbourhood of one channel, replicated edges. -/
def neigh9 (img : RGBImg) (sel : ℚ × ℚ × ℚ → ℚ) (x y : ℕ) : List ℚ :=
  [sel (img.pix (clampIdx img.width ((x : ℤ) - 1)) (clampIdx img.height ((y : ℤ) - 1))),
   sel (img.pix x (clampIdx img.height ((y : ℤ) - 1))),
   sel (img.pix (clampIdx img.width ((x : ℤ) + 1)) (clampIdx img.height ((y : ℤ) - 1))),
   sel (img.pix (clampIdx img.width ((x : ℤ) - 1)) y),
   sel (img.pix x y),
   sel (img.pix (clampIdx img.width ((x : ℤ) + 1)) y),
   sel (img.pix (clampIdx img.width ((x : ℤ) - 1)) (clampIdx img.height ((y : ℤ) + 1))),
   sel (img.pix x (clampIdx img.height ((y : ℤ) + 1))),
   sel (img.pix (clampIdx img.width ((x : ℤ) + 1)) (clampIdx img.height ((y : ℤ) + 1)))]

/-- `ImageFilter.MedianFilter(size=3)`. -/
def median_filter (img : RGBImg) : RGBImg :=
  ⟨img.width, img.height, fun x y =>
    (median9 (neigh9 img (fun c => c.1) x y),
     median9 (neigh9 img (fun c => c.2.1) x y),
     median9 (neigh9 img (fun c => c.2.2) x y))⟩

/-- One interior channel sample of `ImageFilter.DETAIL`
(kernel `(0,-1,0,-1,10,-1,0,-1,0)`, scale 6). -/
def detailChan (img : RGBImg) (sel : ℚ × ℚ × ℚ → ℚ) (x y : ℕ) : ℚ :=
  q8 ((10 * sel (img.pix x y) - sel (img.pix (x - 1) y) - sel (img.pix (x + 1) y)
    - sel (img.pix x (y - 1)) - sel (img.pix x (y + 1))) / 6)

/-- `ImageFilter.DETAIL`: interior convolved, one-pixel border copied. -/
def detail_filter (img : RGBImg) : RGBImg :=
  ⟨img.width, img.height, fun x y =>
    if x = 0 ∨ y = 0 ∨ x + 1 = img.width ∨ y + 1 = img.height then img.pix x y
    else
      (detailChan img (fun c => c.1) x y,
       detailChan img (fun c => c.2.1) x y,
       detailChan img (fun c => c.2.2) x y)⟩

/-- One channel of the image, row-major, for the percentile stretch. -/
def chanList (img : RGBImg) (sel : ℚ × ℚ × ℚ → ℚ) : List ℚ :=
  (List.range img.height).flatMap fun y =>
    (List.range img.width).map fun x => sel (img.pix x y)

/-- `np.percentile(channel, p)` with numpy's default linear
interpolation. -/
def percentileQ (l : List ℚ) (p : ℚ) : ℚ :=
  let s := l.insertionSort (· ≤ ·)
  let n := s.length
  if n = 0 then 0
  else
    let pos : ℚ := p * ((n : ℚ) - 1) / 100
    let i : ℕ := (⌊pos⌋).toNat
    let lo := s.getD i 0
    lo + (pos - ((⌊pos⌋ : ℤ) : ℚ)) * (s.getD (i + 1) lo - lo)

/-- One stretched channel sample of `_apply_color_balance`:
`np.clip((channel - p2) * 255 / (p98 - p2), 0, 255)` assigned back into a
`uint8` array (truncating).  A degenerate `p98 = p2` divides by zero; over
`ℚ` that yields 0 where numpy yields non-finite values — no claim
evaluates the stretch on such an image. -/
def stretchChan (lo hi p : ℚ) : ℚ := q8 ((p - lo) * 255 / (hi - lo))

/-- `_apply_color_balance` (its internal `try` never fires on a 3-channel
array, see the section comment). -/
def apply_color_balance (img : RGBImg) : RGBImg :=
  let loR := percentileQ (chanList img (fun c => c.1)) 2
  let hiR := percentileQ (chanList img (fun c => c.1)) 98
  let loG := percentileQ (chanList img (fun c => c.2.1)) 2
  let hiG := percentileQ (chanList img (fun c => c.2.1)) 98
  let loB := percentileQ (chanList img (fun c => c.2.2)) 2
  let hiB := percentileQ (chanList img (fun c => c.2.2)) 98
  ⟨img.width, img.height, fun x y =>
    let c := img.pix x y
    (stretchChan loR hiR c.1, stretchChan loG hiG c.2.1, stretchChan loB hiB c.2.2)⟩

/-- Python `int(...)`: truncation toward zero. -/
def pyInt (q : ℚ) : ℤ := if q < 0 then ⌈q⌉ else ⌊q⌋

/-- A parameterised executor step: when enabled, decode the factor and
apply the operation — a malformed factor raises (`TypeError` inside PIL),
modelled as `Except.error`. -/
def stepP (prev : RGBImg) (cond : Bool) (v : PVal) (op : ℚ → RGBImg) :
    Except Unit RGBImg :=
  if cond then
    match v with
    | .num q => .ok (op q)
    | .malformed => .error ()
  else .ok prev

/-- A parameterless executor step: cannot raise on an RGB image. -/
def stepN (prev : RGBImg) (cond : Bool) (op : RGBImg → RGBImg) :
    Except Unit RGBImg :=
  .ok (if cond then op prev else prev)

/-- The `try` body of `_apply_enhancements`: the seven steps in source
order, sequenced in `Except` (the first raising step aborts the rest). -/
def applyEnhancementsE (img : RGBImg) (a : Analysis) : Except Unit RGBImg :=
  (stepP img (a.recommendedEnhancements.contains "sharpening")
      (pget a.enhancementParameters "sharpness" (13/10))
      (fun p => unsharp_mask img (pyInt (p * 100)))).bind fun e1 =>
  (stepP e1 (a.recommendedEnhancements.contains "contrast_enhancement")
      (pget a.enhancementParameters "contrast" (6/5))
      (fun p => contrast_enhance e1 p)).bind fun e2 =>
  (stepP e2 (a.recommendedEnhancements.contains "brightness_adjustment")
      (pget a.enhancementParameters "brightness" (11/10))
      (fun p => brightness_enhance e2 p)).bind fun e3 =>
  (stepP e3 (a.recommendedEnhancements.contains "color_saturation")
      (pget a.enhancementParameters "saturation" (23/20))
      (fun p => saturation_enhance e3 p)).bind fun e4 =>
  (stepN e4 (a.recommendedEnhancements.contains "noise_reduction")
      median_filter).bind fun e5 =>
  (stepN e5 (a.recommendedEnhancements.contains "color_balance")
      apply_color_balance).bind fun e6 =>
  (stepN e6 (a.recommendedEnhancements.contains "detail_enhancement")
      detail_filter).bind fun e7 =>
  .ok e7

/-- `_apply_enhancements`: the `try` body, with the `except` handler
returning the ORIGINAL image. -/
def apply_enhancements (img : RGBImg) (a : Analysis) : RGBImg :=
  match applyEnhancementsE img a with
  | .ok r => r
  | .error _ => img

/-- Modelled from the spec's words, for comparison with the code: the
skip-and-continue executor — each failing operation is skipped and the
remaining operations still apply to the partial result. -/
def apply_enhancements_skipping (img : RGBImg) (a : Analysis) : RGBImg :=
  let keep : RGBImg → Except Unit RGBImg → RGBImg := fun prev r =>
    match r with
    | .ok v => v
    | .error _ => prev
  let e1 := keep img (stepP img (a.recommendedEnhancements.contains "sharpening")
      (pget a.enhancementParameters "sharpness" (13/10))
      (fun p => unsharp_mask img (pyInt (p * 100))))
  let e2 := keep e1 (stepP e1 (a.recommendedEnhancements.contains "contrast_enhancement")
      (pget a.enhancementParameters "contrast" (6/5))
      (fun p => contrast_enhance e1 p))
  let e3 := keep e2 (stepP e2 (a.recommendedEnhancements.contains "brightness_adjustment")
      (pget a.enhancementParameters "brightness" (11/10))
      (fun p => brightness_enhance e2 p))
  let e4 := keep e3 (stepP e3 (a.recommendedEnhancements.contains "color_saturation")
      (pget a.enhancementParameters "saturation" (23/20))
      (fun p => saturation_enhance e3 p))
  let e5 := keep e4 (stepN e4 (a.recommendedEnhancements.contains "noise_reduction")
      median_filter)
  let e6 := keep e5 (stepN e5 (a.recommendedEnhancements.contains "color_balance")
      apply_color_balance)
  keep e6 (stepN e6 (a.recommendedEnhancements.contains "detail_enhancement")
      detail_filter)

end PixelFly

namespace PixelFly

/-- C9.  Applying an empty plan is the identity on the pixel data: no step
is enabled, the `try` body returns the untouched copy, and the result
equals the input image. -/
theorem C9_empty_plan (img : RGBImg) (a : Analysis)
    (h : a.recommendedEnhancements = []) : apply_enhancements img a = img := by
  obtain ⟨t, qi, re, ep, qim, conf⟩ := a
  simp only at h
  subst h
  rfl

/-- An analysis whose recommended plan is empty. -/
def emptyA : Analysis :=
  ⟨"general", [], [], default_parameters, 1/4, 3/5⟩

/-- Witness for C9: the empty plan on the concrete black image. -/
theorem C9_empty_plan_witness :
    emptyA.recommendedEnhancements = [] ∧ apply_enhancements z4 emptyA = z4 :=
  ⟨rfl, C9_empty_plan z4 emptyA rfl⟩

/-- The C4 counterexample image: two pixels, gray 100 and gray 200. -/
def cimg4 : RGBImg :=
  ⟨2, 1, fun x _ => if x = 0 then (100, 100, 100) else (200, 200, 200)⟩

/-- The C4 counterexample analysis: contrast factor 2 (well-formed),
followed by a malformed brightness factor from the advisory response. -/
def a4 : Analysis :=
  ⟨"general", [], ["contrast_enhancement", "brightness_adjustment"],
   [("contrast", .num 2), ("brightness", .malformed)], 7/20, 17/20⟩

/-- C4 counterexample.  The contrast step succeeds (visibly changing the
pixels), then the brightness step raises on its malformed factor — and the
executor returns the ORIGINAL image, discarding the contrast effect. A
skip-and-continue executor (the spec's behaviour, `apply_enhancements_skipping`)
would instead return the contrast-enhanced image.  So the executor does
not skip a failing operation and continue: it abandons the plan and falls
back to the unmodified source. -/
theorem C4_counterexample :
    apply_enhancements cimg4 a4 = cimg4 ∧
      apply_enhancements_skipping cimg4 a4 = contrast_enhance cimg4 2 ∧
      apply_enhancements_skipping cimg4 a4 ≠ apply_enhancements cimg4 a4 := by
  have h1 : apply_enhancements cimg4 a4 = cimg4 := rfl
  have h2 : apply_enhancements_skipping cimg4 a4 = contrast_enhance cimg4 2 := rfl
  have hlm : lumaMean cimg4 = 150 := by
    have hgrid : gridF 2 1 = {((0 : ℕ), (0 : ℕ)), ((1 : ℕ), (0 : ℕ))} := by decide
    have e0 : pilLumaAt cimg4 0 0 = 100 := by
      simp only [pilLumaAt, cimg4]
      norm_num
    have e1 : pilLumaAt cimg4 1 0 = 200 := by
      simp only [pilLumaAt, cimg4]
      norm_num
    rw [lumaMean, fmean, show cimg4.width = 2 from rfl,
      show cimg4.height = 1 from rfl, hgrid,
      Finset.sum_pair (by decide),
      show ({((0 : ℕ), (0 : ℕ)), ((1 : ℕ), (0 : ℕ))} : Finset (ℕ × ℕ)).card = 2
        from by decide]
    simp only [e0, e1]
    norm_num
  have hm : ((⌊lumaMean cimg4 + 1/2⌋ : ℤ) : ℚ) = 150 := by
    rw [hlm]
    norm_num
  have hpx : (contrast_enhance cimg4 2).pix 0 0 = ((50 : ℚ), (50 : ℚ), (50 : ℚ)) := by
    simp only [contrast_enhance, blend8, q8, hm,
      show cimg4.pix 0 0 = ((100 : ℚ), (100 : ℚ), (100 : ℚ)) from rfl]
    norm_num
  refine ⟨h1, h2, ?_⟩
  rw [h1, h2]
  intro hcontra
  have hq : ((50 : ℚ), (50 : ℚ), (50 : ℚ)) = ((100 : ℚ), (100 : ℚ), (100 : ℚ)) := by
    calc ((50 : ℚ), (50 : ℚ), (50 : ℚ))
        = (contrast_enhance cimg4 2).pix 0 0 := hpx.symm
      _ = cimg4.pix 0 0 := by rw [hcontra]
      _ = ((100 : ℚ), (100 : ℚ), (100 : ℚ)) := rfl
  have : (50 : ℚ) = 100 := congrArg (fun c => c.1) hq
  norm_num at this

/-- Whether a parameter value is numeric. -/
def isNum : PVal → Bool
  | .num _ => true
  | .malformed => false

/-- Every factor that an enabled parameterised step will decode is
numeric. -/
def paramsOkFor (a : Analysis) : Prop :=
  (a.recommendedEnhancements.contains "sharpening" = true →
    isNum (pget a.enhancementParameters "sharpness" (13/10)) = true) ∧
  (a.recommendedEnhancements.contains "contrast_enhancement" = true →
    isNum (pget a.enhancementParameters "contrast" (6/5)) = true) ∧
  (a.recommendedEnhancements.contains "brightness_adjustment" = true →
    isNum (pget a.enhancementParameters "brightness" (11/10)) = true) ∧
  (a.recommendedEnhancements.contains "color_saturation" = true →
    isNum (pget a.enhancementParameters "saturation" (23/20)) = true)

/-- An enabled-or-not parameterised step with a numeric factor never
raises. -/
theorem stepP_ok (prev : RGBImg) (b : Bool) (v : PVal) (op : ℚ → RGBImg)
    (h : b = true → isNum v = true) : ∃ r, stepP prev b v op = .ok r := by
  cases b
  · exact ⟨prev, rfl⟩
  · cases v with
    | num q => exact ⟨op q, rfl⟩
    | malformed => exact absurd (h rfl) (by decide)

/-- C4 amended.  (1) Whenever any individual operation fails, the executor
returns the original, unmodified image — the effects of operations already
applied are discarded, not preserved.  (2) When every enabled
parameterised step has a numeric factor, the whole plan applies: the
parameterless steps (median filter, the internally-guarded color balance,
detail) never raise, and the executor returns the fully enhanced copy. -/
theorem C4_amended :
    (∀ (img : RGBImg) (a : Analysis) (e : Unit),
      applyEnhancementsE img a = .error e → apply_enhancements img a = img) ∧
    (∀ (img : RGBImg) (a : Analysis), paramsOkFor a →
      ∃ r, applyEnhancementsE img a = .ok r ∧ apply_enhancements img a = r) := by
  constructor
  · intro img a e he
    rw [apply_enhancements, he]
  · intro img a hok
    obtain ⟨h1, h2, h3, h4⟩ := hok
    obtain ⟨r1, hr1⟩ := stepP_ok img
      (a.recommendedEnhancements.contains "sharpening")
      (pget a.enhancementParameters "sharpness" (13/10))
      (fun p => unsharp_mask img (pyInt (p * 100))) h1
    obtain ⟨r2, hr2⟩ := stepP_ok r1
      (a.recommendedEnhancements.contains "contrast_enhancement")
      (pget a.enhancementParameters "contrast" (6/5))
      (fun p => contrast_enhance r1 p) h2
    obtain ⟨r3, hr3⟩ := stepP_ok r2
      (a.recommendedEnhancements.contains "brightness_adjustment")
      (pget a.enhancementParameters "brightness" (11/10))
      (fun p => brightness_enhance r2 p) h3
    obtain ⟨r4, hr4⟩ := stepP_ok r3
      (a.recommendedEnhancements.contains "color_saturation")
      (pget a.enhancementParameters "saturation" (23/20))
      (fun p => saturation_enhance r3 p) h4
    have hE : ∃ r, applyEnhancementsE img a = .ok r := by
      rw [applyEnhancementsE, hr1]
      simp only [Except.bind]
      rw [hr2]
      simp only [Except.bind]
      rw [hr3]
      simp only [Except.bind]
      rw [hr4]
      simp only [Except.bind, stepN]
      exact ⟨_, rfl⟩
    obtain ⟨r, hr⟩ := hE
    exact ⟨r, hr, by rw [apply_enhancements, hr]⟩

/-- An analysis enabling only the contrast step, with a numeric factor. -/
def a9 : Analysis :=
  ⟨"general", [], ["contrast_enhancement"], [("contrast", .num 2)], 7/20, 17/20⟩

/-- Witness for C4 amended: the failing concrete plan falls back to the
original image, and the well-parameterised concrete plan completes. -/
theorem C4_amended_witness :
    (applyEnhancementsE cimg4 a4 = .error () ∧
      apply_enhancements cimg4 a4 = cimg4) ∧
      (paramsOkFor a9 ∧
        ∃ r, applyEnhancementsE cimg4 a9 = .ok r ∧
          apply_enhancements cimg4 a9 = r) :=
  ⟨⟨rfl, (C4_amended.1 cimg4 a4 () rfl)⟩,
    ⟨⟨by decide, by decide, by decide, by decide⟩,
      C4_amended.2 cimg4 a9 ⟨by decide, by decide, by decide, by decide⟩⟩⟩

end PixelFly

namespace PixelFly

/-! ## Resizing (`services/image_processor.resize_image`)

```python
if maintain_aspect:
    image.thumbnail(max_size, Image.Resampling.LANCZOS)
    return image          # the SAME object, mutated in place
else:
    return image.resize(max_size, Image.Resampling.LANCZOS)  # a new object
```

`PIL.Image.thumbnail` mutates `self` (it reassigns `self.im` /
`self._size`) and `resize_image` returns that same object.  Each modelled
call returns a pair `(returned image, the caller's source object after
the call)`, which makes the mutation visible in a pure embedding.  The
aspect-preserving size computation mirrors PIL's `thumbnail` exactly
(`round_aspect` with its floor/ceil tie-break and the minimum of 1; PIL's
`aspect = width / height` is a binary float, exact here over `ℚ`); the
LANCZOS resampling kernel is abstracted as index subsampling — no claim
depends on resampled pixel values, only on dimensions and on which object
changes. -/

/-- PIL `round_aspect(number, key)`: whichever of floor/ceil minimises
`key` (floor on ties, as Python `min` keeps the first), at least 1. -/
def round_aspect (q : ℚ) (key : ℤ → ℚ) : ℤ :=
  max (if key ⌊q⌋ ≤ key ⌈q⌉ then ⌊q⌋ else ⌈q⌉) 1

/-- The target size computed by `PIL.Image.thumbnail` when the image does
not already fit. -/
def thumbnailSize (w h mx my : ℕ) : ℕ × ℕ :=
  let aspect : ℚ := (w : ℚ) / (h : ℚ)
  if aspect ≤ (mx : ℚ) / (my : ℚ) then
    ((round_aspect ((my : ℚ) * aspect)
        (fun n => |aspect - (n : ℚ) / (my : ℚ)|)).toNat, my)
  else
    (mx, (round_aspect ((mx : ℚ) / aspect)
        (fun n => if n = 0 then 0 else |aspect - (mx : ℚ) / (n : ℚ)|)).toNat)

/-- Index subsampling standing in for LANCZOS resampling (see the section
comment). -/
def subsample (img : RGBImg) (w' h' : ℕ) : RGBImg :=
  ⟨w', h', fun x y => img.pix (x * img.width / w') (y * img.height / h')⟩

/-- `PIL.Image.thumbnail(size)`: no-op when the image already fits or the
computed size is unchanged; otherwise the image object is replaced by the
resized one (in-place mutation). -/
def pilThumbnail (img : RGBImg) (mx my : ℕ) : RGBImg :=
  if img.width ≤ mx ∧ img.height ≤ my then img
  else
    let sz := thumbnailSize img.width img.height mx my
    if sz = (img.width, img.height) then img
    else subsample img sz.1 sz.2

/-- `ImageProcessor.resize_image`, returning
`(returned image, source object after the call)`. -/
def resize_image (img : RGBImg) (mx my : ℕ) (maintainAspect : Bool) :
    RGBImg × RGBImg :=
  if maintainAspect then
    let t := pilThumbnail img mx my
    (t, t)
  else (subsample img mx my, img)

/-- `_apply_enhancements` with the source object tracked: the executor
writes only its local `enhanced_image`, starting from `image.copy()`, and
every modelled PIL call (`filter`, `enhance`, `Image.fromarray`)
allocates a new image, so the source is returned unchanged by
construction. -/
def apply_enhancements_tracked (img : RGBImg) (a : Analysis) :
    RGBImg × RGBImg :=
  (apply_enhancements img a, img)

/-- A 4096×4096 all-black image. -/
def big4096 : RGBImg := ⟨4096, 4096, fun _ _ => (0, 0, 0)⟩

/-- C7 counterexample.  `resize_image` with `maintain_aspect=True` on a
4096×4096 image shrinks the caller's image object in place to 2048×2048:
after the call the source object is no longer the original image, so
resizing is not copy-on-write. -/
theorem C7_counterexample :
    ((resize_image big4096 2048 2048 true).2).width = 2048 ∧
      big4096.width = 4096 ∧
      (resize_image big4096 2048 2048 true).2 ≠ big4096 := by
  have hsz : thumbnailSize 4096 4096 2048 2048 = (2048, 2048) := by
    rw [thumbnailSize]
    norm_num
    rw [round_aspect]
    norm_num
    decide
  have hthumb : pilThumbnail big4096 2048 2048 = subsample big4096 2048 2048 := by
    rw [pilThumbnail, if_neg (by decide)]
    show (if thumbnailSize 4096 4096 2048 2048 = ((4096 : ℕ), (4096 : ℕ))
        then big4096
        else subsample big4096 (thumbnailSize 4096 4096 2048 2048).1
          (thumbnailSize 4096 4096 2048 2048).2)
      = subsample big4096 2048 2048
    rw [hsz]
    norm_num
  have hw : ((resize_image big4096 2048 2048 true).2).width = 2048 := by
    show (pilThumbnail big4096 2048 2048).width = 2048
    rw [hthumb]
    rfl
  refine ⟨hw, rfl, ?_⟩
  intro h
  rw [h] at hw
  exact absurd hw (by decide)

/-- C7 amended.  The enhancement pipeline never mutates its source (it
copies first, and every modelled PIL operation allocates), and
`resize_image` without aspect preservation returns a new image; but with
aspect preservation the source object is only unchanged when the image
already fits within the bounds — an oversized image is mutated in place
(see the counterexample). -/
theorem C7_amended :
    (∀ (img : RGBImg) (a : Analysis),
      (apply_enhancements_tracked img a).2 = img) ∧
    (∀ (img : RGBImg) (mx my : ℕ), img.width ≤ mx → img.height ≤ my →
      (resize_image img mx my true).2 = img) ∧
    (∀ (img : RGBImg) (mx my : ℕ), (resize_image img mx my false).2 = img) := by
  refine ⟨fun img a => rfl, ?_, fun img mx my => rfl⟩
  intro img mx my hw hh
  show pilThumbnail img mx my = img
  rw [pilThumbnail, if_pos ⟨hw, hh⟩]

/-- Witness for C7 amended: a 100×100 image within the 2048×2048 bounds
is untouched by the aspect-preserving resize. -/
theorem C7_amended_witness :
    (img200.width ≤ 2048 ∧ img200.height ≤ 2048) ∧
      (resize_image img200 2048 2048 true).2 = img200 :=
  ⟨⟨by decide, by decide⟩, C7_amended.2.1 img200 2048 2048 (by decide) (by decide)⟩

end PixelFly

namespace PixelFly

/-! ## Composition metrics (`services/watermark_service._analyze_composition`)

The five zones are numpy slices `img_array[rows, cols]` of the `h×w×3`
array; per zone the code computes `np.mean`, `np.std` and a Sobel-based
complexity, then `_calculate_suitability_score(brightness, contrast,
complexity)`.

* On an image with a dimension below 3, `h//3` or `w//3` is 0 and a zone
  slice is empty: `np.mean`/`np.std` of an empty slice are NaN, modelled
  as `none`, and the suitability computed from NaN is NaN — no value in
  `[0, 1]`.
* `contrast = np.std(zone)` and `complexity` (mean Sobel gradient
  magnitude, or 0.0 on an internal exception) are floating square-root
  quantities with no exact rational form; both are non-negative, and the
  suitability bound is proved for *every* non-negative contrast and
  complexity input, which covers the code's values. -/

/-- The five composition zones, as index sets `(x, y)` (cols × rows). -/
def wmRegion (w h : ℕ) (z : String) : Finset (ℕ × ℕ) :=
  if z = "top_left" then Finset.Ico 0 (w / 3) ×ˢ Finset.Ico 0 (h / 3)
  else if z = "top_right" then Finset.Ico (2 * w / 3) w ×ˢ Finset.Ico 0 (h / 3)
  else if z = "bottom_left" then Finset.Ico 0 (w / 3) ×ˢ Finset.Ico (2 * h / 3) h
  else if z = "bottom_right" then
    Finset.Ico (2 * w / 3) w ×ˢ Finset.Ico (2 * h / 3) h
  else if z = "center" then
    Finset.Ico (w / 3) (2 * w / 3) ×ˢ Finset.Ico (h / 3) (2 * h / 3)
  else ∅

/-- The zone keys, in the source dictionary order. -/
def zoneNames : List String :=
  ["top_left", "top_right", "bottom_left", "bottom_right", "center"]

/-- Zone `brightness = np.mean(zone_data)` over the `3·|zone|` samples;
NaN (`none`) on an empty slice. -/
def zone_brightness (img : RGBImg) (z : String) : Option ℚ :=
  let R := wmRegion img.width img.height z
  if R.card = 0 then none
  else some ((∑ p in R, chanSum img p) / ((3 * R.card : ℕ) : ℚ))

/-- Zone sample variance (`np.std(zone_data)` squared); NaN (`none`) on
an empty slice. -/
def zone_variance_opt (img : RGBImg) (z : String) : Option ℚ :=
  let R := wmRegion img.width img.height z
  if R.card = 0 then none
  else
    let m := (∑ p in R, chanSum img p) / ((3 * R.card : ℕ) : ℚ)
    some ((∑ p in R,
      (((img.pix p.1 p.2).1 - m) ^ 2 + ((img.pix p.1 p.2).2.1 - m) ^ 2 +
        ((img.pix p.1 p.2).2.2 - m) ^ 2)) / ((3 * R.card : ℕ) : ℚ))

/-- `_calculate_suitability_score`: equally weighted mid-brightness,
contrast and low-complexity scores. -/
def calculate_suitability_score (b c k : ℚ) : ℚ :=
  ((1 - |b - 128| / 128) + min (c / 50) 1 + max 0 (1 - k / 100)) / 3

/-- The zone's suitability, NaN (`none`) when its brightness is NaN;
`c`/`k` are the zone's contrast and complexity inputs. -/
def zone_suitability (img : RGBImg) (z : String) (c k : ℚ) : Option ℚ :=
  (zone_brightness img z).map (fun b => calculate_suitability_score b c k)

/-- All samples of the image lie in `[0, 255]`. -/
def samplesIn255 (img : RGBImg) : Prop :=
  ∀ x, x < img.width → ∀ y, y < img.height →
    (0 ≤ (img.pix x y).1 ∧ (img.pix x y).1 ≤ 255) ∧
    (0 ≤ (img.pix x y).2.1 ∧ (img.pix x y).2.1 ≤ 255) ∧
    (0 ≤ (img.pix x y).2.2 ∧ (img.pix x y).2.2 ≤ 255)

/-- The suitability formula maps in-range brightness and non-negative
contrast/complexity into `[0, 1]`. -/
theorem suitability_score_range (b c k : ℚ) (hb0 : 0 ≤ b) (hb : b ≤ 255)
    (hc : 0 ≤ c) (hk : 0 ≤ k) :
    0 ≤ calculate_suitability_score b c k ∧
      calculate_suitability_score b c k ≤ 1 := by
  have habs : |b - 128| ≤ 128 := abs_le.mpr ⟨by linarith, by linarith⟩
  have habs0 : 0 ≤ |b - 128| := abs_nonneg _
  have h1a : 0 ≤ 1 - |b - 128| / 128 := by linarith
  have h1b : 1 - |b - 128| / 128 ≤ 1 := by linarith
  have h2a : 0 ≤ min (c / 50) 1 := le_min (by positivity) (by norm_num)
  have h2b : min (c / 50) 1 ≤ 1 := min_le_right _ _
  have h3a : (0 : ℚ) ≤ max 0 (1 - k / 100) := le_max_left _ _
  have h3b : max 0 (1 - k / 100) ≤ 1 := by
    apply max_le (by norm_num)
    have : 0 ≤ k / 100 := by positivity
    linarith
  constructor
  · rw [calculate_suitability_score]; linarith
  · rw [calculate_suitability_score]; linarith

/-- Statistics of one non-empty, in-bounds zone of an in-range image:
defined brightness in `[0, 255]`, defined non-negative variance, and a
suitability value in `[0, 1]` for all non-negative contrast/complexity
inputs. -/
theorem zone_stats_of (img : RGBImg) (z : String)
    (hsub : ∀ p ∈ wmRegion img.width img.height z,
      p.1 < img.width ∧ p.2 < img.height)
    (hcard : (wmRegion img.width img.height z).card ≠ 0)
    (hs : samplesIn255 img) :
    ∃ b, zone_brightness img z = some b ∧ 0 ≤ b ∧ b ≤ 255 ∧
      (∃ v, zone_variance_opt img z = some v ∧ 0 ≤ v) ∧
      ∀ c k : ℚ, 0 ≤ c → 0 ≤ k →
        zone_suitability img z c k = some (calculate_suitability_score b c k) ∧
        0 ≤ calculate_suitability_score b c k ∧
        calculate_suitability_score b c k ≤ 1 := by
  set R := wmRegion img.width img.height z with hRdef
  have hbounds : ∀ p ∈ R, 0 ≤ chanSum img p ∧ chanSum img p ≤ 765 := by
    intro p hp
    obtain ⟨hx, hy⟩ := hsub p hp
    obtain ⟨⟨r0, r1⟩, ⟨g0, g1⟩, ⟨b0, b1⟩⟩ := hs p.1 hx p.2 hy
    rw [chanSum]
    constructor <;> [positivity; linarith]
  have hpos : (0 : ℚ) < ((3 * R.card : ℕ) : ℚ) := by
    have : 0 < 3 * R.card := by omega
    exact_mod_cast this
  have hsum0 : 0 ≤ ∑ p in R, chanSum img p :=
    Finset.sum_nonneg (fun p hp => (hbounds p hp).1)
  have hsum1 : ∑ p in R, chanSum img p ≤ (R.card : ℚ) * 765 := by
    calc ∑ p in R, chanSum img p ≤ ∑ _p in R, (765 : ℚ) :=
          Finset.sum_le_sum (fun p hp => (hbounds p hp).2)
      _ = (R.card : ℚ) * 765 := by rw [Finset.sum_const, nsmul_eq_mul]
  set b := (∑ p in R, chanSum img p) / ((3 * R.card : ℕ) : ℚ) with hbdef
  have hb0 : 0 ≤ b := by positivity
  have hb255 : b ≤ 255 := by
    rw [hbdef, div_le_iff₀ hpos]
    push_cast
    linarith
  refine ⟨b, ?_, hb0, hb255, ?_, ?_⟩
  · rw [zone_brightness]
    simp only [← hRdef]
    rw [if_neg hcard]
  · refine ⟨(∑ p in R,
      (((img.pix p.1 p.2).1 - b) ^ 2 + ((img.pix p.1 p.2).2.1 - b) ^ 2 +
        ((img.pix p.1 p.2).2.2 - b) ^ 2)) / ((3 * R.card : ℕ) : ℚ), ?_, ?_⟩
    · rw [zone_variance_opt]
      simp only [← hRdef]
      rw [if_neg hcard]
    · apply div_nonneg _ (le_of_lt hpos)
      apply Finset.sum_nonneg
      intro p _
      positivity
  · intro c k hc hk
    obtain ⟨hs0, hs1⟩ := suitability_score_range b c k hb0 hb255 hc hk
    refine ⟨?_, hs0, hs1⟩
    rw [zone_suitability, zone_brightness]
    simp only [← hRdef]
    rw [if_neg hcard]
    rfl

end PixelFly

namespace PixelFly

/-- A 2×2 all-black image (all samples in `[0, 255]`). -/
def img22 : RGBImg := ⟨2, 2, fun _ _ => (0, 0, 0)⟩

/-- C8 counterexample.  On a 2×2 image — all of whose samples lie in
`[0, 255]` — the `top_left` zone slice `img_array[0:0, 0:0]` is empty, so
its brightness is `np.mean` of an empty slice: NaN (`none`), not a number
in `[0, 255]`, and the suitability computed from it is NaN as well — the
documented ranges do not hold for every image. -/
theorem C8_counterexample :
    samplesIn255 img22 ∧
      zone_brightness img22 ("top_left") = none ∧
      zone_suitability img22 ("top_left") 0 0 = none := by
  refine ⟨?_, rfl, rfl⟩
  intro x _ y _
  refine ⟨⟨le_refl 0, by norm_num [img22]⟩, ⟨le_refl 0, by norm_num [img22]⟩,
    ⟨le_refl 0, by norm_num [img22]⟩⟩

/-- C8 amended.  For every image at least 3×3 — so that every zone slice
is non-empty — with all samples in `[0, 255]`: every zone has a defined
brightness in `[0, 255]` and a defined non-negative variance, and for all
non-negative contrast and complexity inputs (which cover the code's
standard-deviation and mean-gradient values) the zone's suitability score
is defined and lies in `[0, 1]`.  (The original claim over *all* images
fails on images smaller than 3×3: see the counterexample.) -/
theorem C8_amended (img : RGBImg) (hw : 3 ≤ img.width) (hh : 3 ≤ img.height)
    (hs : samplesIn255 img) :
    ∀ z ∈ zoneNames,
      ∃ b, zone_brightness img z = some b ∧ 0 ≤ b ∧ b ≤ 255 ∧
        (∃ v, zone_variance_opt img z = some v ∧ 0 ≤ v) ∧
        ∀ c k : ℚ, 0 ≤ c → 0 ≤ k →
          zone_suitability img z c k = some (calculate_suitability_score b c k) ∧
          0 ≤ calculate_suitability_score b c k ∧
          calculate_suitability_score b c k ≤ 1 := by
  intro z hz
  simp only [zoneNames, List.mem_cons, List.mem_singleton] at hz
  rcases hz with rfl | rfl | rfl | rfl | rfl | h0
  · apply zone_stats_of img _ _ _ hs
    · intro p hp
      simp [wmRegion, Finset.mem_product, Finset.mem_Ico] at hp
      omega
    · simp [wmRegion, Finset.card_product, Nat.card_Ico]
      omega
  · apply zone_stats_of img _ _ _ hs
    · intro p hp
      simp [wmRegion, Finset.mem_product, Finset.mem_Ico] at hp
      omega
    · simp [wmRegion, Finset.card_product, Nat.card_Ico]
      omega
  · apply zone_stats_of img _ _ _ hs
    · intro p hp
      simp [wmRegion, Finset.mem_product, Finset.mem_Ico] at hp
      omega
    · simp [wmRegion, Finset.card_product, Nat.card_Ico]
      omega
  · apply zone_stats_of img _ _ _ hs
    · intro p hp
      simp [wmRegion, Finset.mem_product, Finset.mem_Ico] at hp
      omega
    · simp [wmRegion, Finset.card_product, Nat.card_Ico]
      omega
  · apply zone_stats_of img _ _ _ hs
    · intro p hp
      simp [wmRegion, Finset.mem_product, Finset.mem_Ico] at hp
      omega
    · simp [wmRegion, Finset.card_product, Nat.card_Ico]
      omega
  · cases h0

/-- A 3×3 all-black image. -/
def img33 : RGBImg := ⟨3, 3, fun _ _ => (0, 0, 0)⟩

/-- Witness for C8 amended, at the concrete 3×3 black image and the
`center` zone. -/
theorem C8_amended_witness :
    (3 ≤ img33.width ∧ 3 ≤ img33.height ∧ samplesIn255 img33 ∧
      "center" ∈ zoneNames) ∧
      (∃ b, zone_brightness img33 ("center") = some b ∧ 0 ≤ b ∧ b ≤ 255 ∧
        (∃ v, zone_variance_opt img33 ("center") = some v ∧ 0 ≤ v) ∧
        ∀ c k : ℚ, 0 ≤ c → 0 ≤ k →
          zone_suitability img33 ("center") c k
            = some (calculate_suitability_score b c k) ∧
          0 ≤ calculate_suitability_score b c k ∧
          calculate_suitability_score b c k ≤ 1) := by
  have hs : samplesIn255 img33 := by
    intro x _ y _
    refine ⟨⟨le_refl 0, by norm_num [img33]⟩, ⟨le_refl 0, by norm_num [img33]⟩,
      ⟨le_refl 0, by norm_num [img33]⟩⟩
  exact ⟨⟨by decide, by decide, hs, by decide⟩,
    C8_amended img33 (by decide) (by decide) hs ("center") (by decide)⟩

end PixelFly
